import Mathlib

/-!
Verification of the ITBI auction-data extraction pipeline
(`parser.py`, `config.py`, `file_generator_xls.py`).

The Python code is shallowly embedded: dataframes become `Table` values
(a list of column names plus rows of loosely typed cells), the pandas
operations used by the code (column detection and renaming, `astype(str)`,
`to_datetime(..., errors := coerce)`, boolean-mask filtering, `groupby`
month bucketing, `sort_values`, `unique`) become explicit list functions,
and exceptions become `Except` values.
-/

namespace ITBI

/-! ## Calendar dates and cells -/

/-- A calendar date as held by a `datetime`/`Timestamp` value. -/
structure CalDate where
  y : Nat
  m : Nat
  d : Nat
deriving DecidableEq, Repr

/-- A loosely typed dataframe cell: missing (`NaN`/`NaT`), text, integer,
datetime, or monthly `Period` (the derived `month` column). -/
inductive Cell where
  | na
  | str (s : String)
  | num (n : Int)
  | date (dt : CalDate)
  | period (py pm : Nat)
  | boolean (b : Bool)
deriving DecidableEq, Repr

/-- A dataframe: column labels plus rows of cells (row `i`, column `j`). -/
structure Table where
  cols : List String
  rows : List (List Cell)
deriving DecidableEq, Repr

/-- Cell of a row at a column index; out-of-range reads are `NaN`. -/
def cellAt (r : List Cell) (i : Nat) : Cell := r.getD i Cell.na

/-! ## Decimal digit rendering and parsing

`str(Period)`, `strftime` and `int(...)` all speak standard decimal
notation; we embed that notation once and reuse it everywhere. -/

/-- The character for a single decimal digit. -/
def digChar (d : Nat) : Char :=
  match d with
  | 0 => '0' | 1 => '1' | 2 => '2' | 3 => '3' | 4 => '4'
  | 5 => '5' | 6 => '6' | 7 => '7' | 8 => '8' | 9 => '9'
  | _ => 'X'

/-- Numeric value of a decimal digit character; `10` marks a non-digit. -/
def digVal (c : Char) : Nat :=
  match c with
  | '0' => 0 | '1' => 1 | '2' => 2 | '3' => 3 | '4' => 4
  | '5' => 5 | '6' => 6 | '7' => 7 | '8' => 8 | '9' => 9
  | _ => 10

/-- Decimal digits, least significant first, with an explicit fuel so the
definition is structurally recursive; the fuel never runs out when it is at
least `n` (see `natDigitsRevFuel_eq`). -/
def natDigitsRevFuel : Nat → Nat → List Char
  | 0, n => [digChar n]
  | fuel + 1, n => if n < 10 then [digChar n] else digChar (n % 10) :: natDigitsRevFuel fuel (n / 10)

/-- Decimal digits of `n`, least significant first. -/
def natDigitsRev (n : Nat) : List Char := natDigitsRevFuel n n

theorem natDigitsRevFuel_eq (f₁ f₂ n : Nat) (h1 : n ≤ f₁) (h2 : n ≤ f₂) :
    natDigitsRevFuel f₁ n = natDigitsRevFuel f₂ n := by
  induction f₁ generalizing f₂ n with
  | zero =>
    have : n = 0 := by omega
    subst this
    cases f₂ with
    | zero => rfl
    | succ b => simp [natDigitsRevFuel]
  | succ a ih =>
    cases f₂ with
    | zero =>
      have : n = 0 := by omega
      subst this
      simp [natDigitsRevFuel]
    | succ b =>
      by_cases hn : n < 10
      · simp [natDigitsRevFuel, hn]
      · have hd : n / 10 < n := Nat.div_lt_self (by omega) (by omega)
        simp only [natDigitsRevFuel, if_neg hn]
        exact congrArg (digChar (n % 10) :: ·) (ih b (n / 10) (by omega) (by omega))

/-- Decimal digits of `n`, most significant first. -/
def natDigits (n : Nat) : List Char := (natDigitsRev n).reverse

/-- `n` printed in decimal. -/
def renderNat (n : Nat) : String := String.mk (natDigits n)

/-- `n` printed in decimal, left padded with zeros to width `w`
(the semantics of a zero-padded `strftime`, for example a 2-digit month). -/
def padNat (w n : Nat) : String :=
  String.mk (List.replicate (w - (natDigits n).length) '0' ++ natDigits n)

/-- Value of a digit string, most significant first (`int` accumulator). -/
def parseDigits (cs : List Char) : Nat := cs.foldl (fun a c => a * 10 + digVal c) 0

/-- Embedding of Python `int(s)` on character lists: all characters must be
decimal digits and the list must be nonempty. -/
def parseNatChars (cs : List Char) : Option Nat :=
  if cs.isEmpty then none
  else if cs.all (fun c => digVal c < 10) then some (parseDigits cs)
  else none

theorem digVal_digChar (d : Nat) (h : d < 10) : digVal (digChar d) = d := by
  interval_cases d <;> rfl

theorem digChar_is_digit (d : Nat) (h : d < 10) : digVal (digChar d) < 10 := by
  rw [digVal_digChar d h]; exact h

theorem natDigitsRev_of_lt (n : Nat) (h : n < 10) : natDigitsRev n = [digChar n] := by
  rw [natDigitsRev]
  cases n with
  | zero => rfl
  | succ k => simp [natDigitsRevFuel, h]

theorem natDigitsRev_of_ge (n : Nat) (h : ¬ n < 10) :
    natDigitsRev n = digChar (n % 10) :: natDigitsRev (n / 10) := by
  rw [natDigitsRev]
  cases hn : n with
  | zero => omega
  | succ k =>
    simp only [natDigitsRevFuel, if_neg (hn ▸ h)]
    rw [natDigitsRevFuel_eq k ((k + 1) / 10) ((k + 1) / 10) (by omega) (by omega)]
    rfl

theorem natDigits_of_lt (n : Nat) (h : n < 10) : natDigits n = [digChar n] := by
  rw [natDigits, natDigitsRev_of_lt n h]
  rfl

theorem natDigits_of_ge (n : Nat) (h : ¬ n < 10) :
    natDigits n = natDigits (n / 10) ++ [digChar (n % 10)] := by
  rw [natDigits, natDigitsRev_of_ge n h]
  simp [natDigits]

theorem parseDigits_append_one (xs : List Char) (c : Char) :
    parseDigits (xs ++ [c]) = 10 * parseDigits xs + digVal c := by
  simp [parseDigits, List.foldl_append]
  omega

theorem parseDigits_natDigits (n : Nat) : parseDigits (natDigits n) = n := by
  induction n using Nat.strong_induction_on with
  | _ n ih =>
    by_cases h : n < 10
    · rw [natDigits_of_lt n h]
      simp [parseDigits, digVal_digChar n h]
    · rw [natDigits_of_ge n h, parseDigits_append_one,
        ih (n / 10) (Nat.div_lt_self (by omega) (by omega)),
        digVal_digChar (n % 10) (Nat.mod_lt _ (by omega))]
      omega

theorem natDigits_all_digit (n : Nat) : ∀ c ∈ natDigits n, digVal c < 10 := by
  induction n using Nat.strong_induction_on with
  | _ n ih =>
    by_cases h : n < 10
    · rw [natDigits_of_lt n h]
      intro c hc
      have hc' : c = digChar n := by simpa using hc
      subst hc'
      exact digChar_is_digit n h
    · rw [natDigits_of_ge n h]
      intro c hc
      rcases List.mem_append.1 hc with h1 | h2
      · exact ih (n / 10) (Nat.div_lt_self (by omega) (by omega)) c h1
      · have h2' : c = digChar (n % 10) := by simpa using h2
        subst h2'
        exact digChar_is_digit _ (Nat.mod_lt _ (by omega))

theorem natDigits_ne_nil (n : Nat) : natDigits n ≠ [] := by
  by_cases h : n < 10
  · rw [natDigits_of_lt n h]; simp
  · rw [natDigits_of_ge n h]; simp

theorem parseDigits_zeros_append (k : Nat) (cs : List Char) :
    parseDigits (List.replicate k '0' ++ cs) = parseDigits cs := by
  induction k with
  | zero => simp
  | succ k ih =>
    rw [List.replicate_succ, List.cons_append]
    have hstep : parseDigits ('0' :: (List.replicate k '0' ++ cs))
        = parseDigits (List.replicate k '0' ++ cs) := by
      have h0 : digVal '0' = 0 := rfl
      simp only [parseDigits, List.foldl_cons, h0]
    rw [hstep, ih]

theorem parseNatChars_padNat (w n : Nat) : parseNatChars (padNat w n).data = some n := by
  have hall : ((padNat w n).data).all (fun c => digVal c < 10) = true := by
    simp only [padNat, List.all_eq_true]
    intro c hc
    rcases List.mem_append.1 hc with h1 | h2
    · have : c = '0' := List.eq_of_mem_replicate h1
      subst this; simp [digVal]
    · simpa using natDigits_all_digit n c h2
  have hne : ((padNat w n).data).isEmpty = false := by
    simp only [padNat]
    cases hnd : natDigits n with
    | nil => exact absurd hnd (natDigits_ne_nil n)
    | cons a l =>
      simp [List.isEmpty_eq_true, hnd]
  simp only [parseNatChars, hne, hall, Bool.false_eq_true, if_false, if_true]
  simp only [padNat]
  rw [parseDigits_zeros_append, parseDigits_natDigits]

theorem natDigits_length_le (k : Nat) (n : Nat) (hk : 1 ≤ k) (h : n < 10 ^ k) :
    (natDigits n).length ≤ k := by
  induction k generalizing n with
  | zero => omega
  | succ k ih =>
    by_cases hn : n < 10
    · rw [natDigits_of_lt n hn]; simp
    · have hk1 : 1 ≤ k := by
        by_contra hc
        have : k = 0 := by omega
        subst this
        simp at h
        omega
      rw [natDigits_of_ge n hn]
      have hdiv : n / 10 < 10 ^ k := by
        have hp : (10 : Nat) ^ (k + 1) = 10 ^ k * 10 := pow_succ 10 k
        exact (Nat.div_lt_iff_lt_mul (by omega)).2 (by omega)
      have := ih (n / 10) hk1 hdiv
      simp only [List.length_append, List.length_cons, List.length_nil]
      omega

theorem padNat_length (w n : Nat) (h : (natDigits n).length ≤ w) :
    (padNat w n).length = w := by
  simp [padNat, String.length, List.length_append]
  omega

theorem padNat_no_dash (w n : Nat) : ∀ c ∈ (padNat w n).data, c ≠ '-' := by
  intro c hc
  simp only [padNat] at hc
  rcases List.mem_append.1 hc with h1 | h2
  · have : c = '0' := List.eq_of_mem_replicate h1
    subst this; decide
  · have := natDigits_all_digit n c h2
    intro hcon
    subst hcon
    simp [digVal] at this

/-! ## Calendar arithmetic and label formats

`get_timestamp_from_month` relies on `datetime` construction and
`timedelta` subtraction; their proleptic-Gregorian semantics (month
lengths, leap years, the years 1..9999 domain) are embedded here. -/

/-- Gregorian leap-year rule used by `datetime`. -/
def isLeapYear (y : Nat) : Bool := (y % 4 == 0 && y % 100 != 0) || y % 400 == 0

/-- Number of days of month `m` of year `y` in the proleptic Gregorian
calendar (the last calendar day of that month). -/
def daysInMonth (y m : Nat) : Nat :=
  if m = 2 then (if isLeapYear y then 29 else 28)
  else if m = 4 ∨ m = 6 ∨ m = 9 ∨ m = 11 then 30
  else 31

/-- `str` of a monthly `pandas.Period`: zero-padded `YYYY-MM` label. -/
def periodStr (y m : Nat) : String := padNat 4 y ++ "-" ++ padNat 2 m

/-- `strftime('%Y-%m-%d')`, the `DATE_FORMAT_OUTPUT` of `config.py`. -/
def isoDate (dt : CalDate) : String :=
  padNat 4 dt.y ++ "-" ++ padNat 2 dt.m ++ "-" ++ padNat 2 dt.d

/-- `strftime('%Y%m%d')`, the `FILENAME_DATE_FORMAT` of `config.py`. -/
def yyyymmdd (y m d : Nat) : String := padNat 4 y ++ padNat 2 m ++ padNat 2 d

/-- Embedding of Python `str.split('-')`. -/
def splitDash : List Char → List (List Char)
  | [] => [[]]
  | c :: rest =>
    if c = '-' then [] :: splitDash rest
    else
      match splitDash rest with
      | [] => [[c]]
      | g :: gs => (c :: g) :: gs

theorem splitDash_no_dash (cs : List Char) (h : ∀ c ∈ cs, c ≠ '-') :
    splitDash cs = [cs] := by
  induction cs with
  | nil => rfl
  | cons c rest ih =>
    have hc : c ≠ '-' := h c (by simp)
    have hrest := ih (fun x hx => h x (by simp [hx]))
    simp [splitDash, hc, hrest]

theorem splitDash_append (xs ys : List Char) (h : ∀ c ∈ xs, c ≠ '-') :
    splitDash (xs ++ '-' :: ys) = xs :: splitDash ys := by
  induction xs with
  | nil => simp [splitDash]
  | cons x xs ih =>
    have hx : x ≠ '-' := h x (by simp)
    have hxs := ih (fun c hc => h c (by simp [hc]))
    simp [splitDash, hx, hxs]

/-- Embedding of `get_timestamp_from_month` (`file_generator_xls.py`):
split the `YYYY-MM` label on `-`, convert both parts with `int`, build
the `datetime` for the first day of the following month (construction
fails outside years 1..9999), subtract one day (which fails only when
stepping below year 1), and format the result as `YYYYMMDD`; `none`
models the exception paths (`ValueError`/`OverflowError`). -/
def lastDayStamp (y m : Nat) : Option String :=
  let nextY := if m = 12 then y + 1 else y
  let nextM := if m = 12 then 1 else m + 1
  if 1 ≤ nextY ∧ nextY ≤ 9999 ∧ 1 ≤ nextM ∧ nextM ≤ 12 ∧ (nextM ≠ 1 ∨ 2 ≤ nextY) then
    if nextM = 1 then some (yyyymmdd (nextY - 1) 12 31)
    else some (yyyymmdd nextY (nextM - 1) (daysInMonth nextY (nextM - 1)))
  else none

def getTimestampFromMonth (s : String) : Option String :=
  match splitDash s.data with
  | [ys, ms] =>
    match parseNatChars ys, parseNatChars ms with
    | some y, some m => lastDayStamp y m
    | _, _ => none
  | _ => none

/-! ## Filename patterns (`config.py`) -/

/-- `DATA_FILE_PATTERN.format(isin, timestamp)`. -/
def DATA_FILE_PATTERN (isin timestamp : String) : String :=
  "ITBI_" ++ isin ++ "_DATA_" ++ timestamp ++ ".xls"

/-- `META_FILE_PATTERN.format(isin, timestamp)`. -/
def META_FILE_PATTERN (isin timestamp : String) : String :=
  "ITBI_" ++ isin ++ "_META_" ++ timestamp ++ ".xls"

/-- `ZIP_FILE_PATTERN.format(isin, timestamp)`. -/
def ZIP_FILE_PATTERN (isin timestamp : String) : String :=
  "ITBI_" ++ isin ++ "_" ++ timestamp ++ ".zip"

/-- Basename produced by `create_data_file_xls` for an identifier and a
month label (`none` models the exception raised for malformed labels). -/
def dataFileName (isin month : String) : Option String :=
  (getTimestampFromMonth month).map (DATA_FILE_PATTERN isin)

/-- Basename produced by `create_meta_file_xls`. -/
def metaFileName (isin month : String) : Option String :=
  (getTimestampFromMonth month).map (META_FILE_PATTERN isin)

/-- Basename produced by `create_zip_package`. -/
def zipFileName (isin month : String) : Option String :=
  (getTimestampFromMonth month).map (ZIP_FILE_PATTERN isin)

theorem padNat_all_digit (w n : Nat) : ∀ c ∈ (padNat w n).data, digVal c < 10 := by
  intro c hc
  simp only [padNat] at hc
  rcases List.mem_append.1 hc with h1 | h2
  · have : c = '0' := List.eq_of_mem_replicate h1
    subst this; decide
  · exact natDigits_all_digit n c h2

theorem lastDayStamp_december (y : Nat) (hy1 : 1 ≤ y) (hy2 : y ≤ 9998) :
    lastDayStamp y 12 = some (yyyymmdd y 12 31) := by
  simp only [lastDayStamp, if_pos rfl, if_true]
  rw [if_pos (by omega : 1 ≤ y + 1 ∧ y + 1 ≤ 9999 ∧ 1 ≤ (1 : Nat) ∧ (1 : Nat) ≤ 12
    ∧ ((1 : Nat) ≠ 1 ∨ 2 ≤ y + 1))]
  simp

theorem lastDayStamp_not_december (y m : Nat)
    (hm1 : 1 ≤ m) (hm2 : m ≤ 11) (hy1 : 1 ≤ y) (hy2 : y ≤ 9999) :
    lastDayStamp y m = some (yyyymmdd y m (daysInMonth y m)) := by
  simp only [lastDayStamp, if_neg (show ¬ m = 12 by omega)]
  rw [if_pos (by omega : 1 ≤ y ∧ y ≤ 9999 ∧ 1 ≤ m + 1 ∧ m + 1 ≤ 12 ∧ (m + 1 ≠ 1 ∨ 2 ≤ y))]
  rw [if_neg (by omega : ¬ m + 1 = 1)]
  simp

theorem getTimestampFromMonth_periodStr (y m : Nat)
    (hm1 : 1 ≤ m) (hm2 : m ≤ 12) (hy1 : 1 ≤ y) (hy2 : y ≤ 9998) :
    getTimestampFromMonth (periodStr y m) = some (yyyymmdd y m (daysInMonth y m)) := by
  have hdata : (periodStr y m).data
      = (padNat 4 y).data ++ '-' :: (padNat 2 m).data := by
    simp [periodStr, String.data_append]
  have hsplit : splitDash (periodStr y m).data
      = [(padNat 4 y).data, (padNat 2 m).data] := by
    rw [hdata, splitDash_append _ _ (padNat_no_dash 4 y),
      splitDash_no_dash _ (padNat_no_dash 2 m)]
  rw [getTimestampFromMonth, hsplit]
  simp only [parseNatChars_padNat]
  by_cases h12 : m = 12
  · subst h12
    have h31 : daysInMonth y 12 = 31 := by simp [daysInMonth]
    rw [h31]
    exact lastDayStamp_december y hy1 hy2
  · exact lastDayStamp_not_december y m hm1 (by omega) hy1 (by omega)

theorem yyyymmdd_length (y m d : Nat) (hy : y ≤ 9999) (hm : m ≤ 99) (hd : d ≤ 99) :
    (yyyymmdd y m d).length = 8 := by
  have h4 : (padNat 4 y).length = 4 :=
    padNat_length 4 y (natDigits_length_le 4 y (by omega) (by omega))
  have h2m : (padNat 2 m).length = 2 :=
    padNat_length 2 m (natDigits_length_le 2 m (by omega) (by omega))
  have h2d : (padNat 2 d).length = 2 :=
    padNat_length 2 d (natDigits_length_le 2 d (by omega) (by omega))
  simp [yyyymmdd, String.length_append, h4, h2m, h2d]

theorem yyyymmdd_all_digit (y m d : Nat) :
    ∀ c ∈ (yyyymmdd y m d).data, digVal c < 10 := by
  intro c hc
  simp only [yyyymmdd, String.data_append, List.mem_append] at hc
  rcases hc with (h | h) | h
  · exact padNat_all_digit 4 y c h
  · exact padNat_all_digit 2 m c h
  · exact padNat_all_digit 2 d c h

/-- Claim C4: for every processed month labeled `YYYY-MM`, the data,
metadata and archive filenames embed a timestamp equal to the last
calendar day of that month rendered as eight digits `YYYYMMDD` (correct
for all month lengths, leap Februaries, and the December-to-January
rollover), in the fixed patterns `ITBI_{identifier}_DATA_{YYYYMMDD}.xls`,
`ITBI_{identifier}_META_{YYYYMMDD}.xls` and
`ITBI_{identifier}_{YYYYMMDD}.zip`. -/
theorem claim_C4 (y m : Nat) (isin : String)
    (hm1 : 1 ≤ m) (hm2 : m ≤ 12) (hy1 : 1 ≤ y) (hy2 : y ≤ 9998) :
    ∃ ts, getTimestampFromMonth (periodStr y m) = some ts ∧
      ts = yyyymmdd y m (daysInMonth y m) ∧
      ts.length = 8 ∧ (∀ c ∈ ts.data, digVal c < 10) ∧
      dataFileName isin (periodStr y m)
        = some ("ITBI_" ++ isin ++ "_DATA_" ++ ts ++ ".xls") ∧
      metaFileName isin (periodStr y m)
        = some ("ITBI_" ++ isin ++ "_META_" ++ ts ++ ".xls") ∧
      zipFileName isin (periodStr y m)
        = some ("ITBI_" ++ isin ++ "_" ++ ts ++ ".zip") := by
  refine ⟨yyyymmdd y m (daysInMonth y m),
    getTimestampFromMonth_periodStr y m hm1 hm2 hy1 hy2, rfl, ?_, ?_, ?_, ?_, ?_⟩
  · have hdm : daysInMonth y m ≤ 99 := by
      rw [daysInMonth]
      split <;> [skip; split] <;> first | omega | (split <;> omega)
    exact yyyymmdd_length y m (daysInMonth y m) (by omega) (by omega) hdm
  · exact yyyymmdd_all_digit y m (daysInMonth y m)
  · simp [dataFileName, getTimestampFromMonth_periodStr y m hm1 hm2 hy1 hy2,
      DATA_FILE_PATTERN]
  · simp [metaFileName, getTimestampFromMonth_periodStr y m hm1 hm2 hy1 hy2,
      META_FILE_PATTERN]
  · simp [zipFileName, getTimestampFromMonth_periodStr y m hm1 hm2 hy1 hy2,
      ZIP_FILE_PATTERN]

/-- Witness for C4 at a concrete leap-February month. -/
theorem claim_C4_witness :
    getTimestampFromMonth "2024-02" = some "20240229" ∧
    dataFileName "IT0000000001" "2024-02"
      = some "ITBI_IT0000000001_DATA_20240229.xls" := by
  obtain ⟨ts, h1, h2, -, -, h5, -, -⟩ :=
    claim_C4 2024 2 "IT0000000001" (by decide) (by decide) (by decide) (by decide)
  have hp : periodStr 2024 2 = "2024-02" := by decide
  have hts : ts = "20240229" := by rw [h2]; decide
  rw [hp] at h1 h5
  rw [hts] at h1 h5
  exact ⟨h1, by simpa using h5⟩

/-! ## Cell stringification and identifier filtering (`clean_isin_column`) -/

/-- Python `str` on an integer. -/
def intToStr (n : Int) : String :=
  if n < 0 then "-" ++ renderNat n.natAbs else renderNat n.natAbs

/-- Python `str` of a cell value, as applied by `astype(str)`:
`NaN` becomes the text `nan`, datetimes print with a midnight time part. -/
def cellToStr (c : Cell) : String :=
  match c with
  | .na => "nan"
  | .str s => s
  | .num n => intToStr n
  | .date dt => isoDate dt ++ " 00:00:00"
  | .period py pm => periodStr py pm
  | .boolean b => if b then "True" else "False"

/-- Python `str.lower()` (ASCII case folding). -/
def strLower (s : String) : String := String.mk (s.data.map Char.toLower)

/-- Does the first list start with the second? -/
def startsWithChars : List Char → List Char → Bool
  | _, [] => true
  | [], _ :: _ => false
  | h :: hs, p :: ps => h == p && startsWithChars hs ps

/-- Substring containment on character lists. -/
def containsChars : List Char → List Char → Bool
  | [], pat => pat.isEmpty
  | h :: hs, pat => startsWithChars (h :: hs) pat || containsChars hs pat

/-- Python `in` on strings: substring containment. -/
def strContainsSub (s pat : String) : Bool := containsChars s.data pat.data

/-- Identifier-column detection of `clean_isin_column`: the exact header
`ISIN`, else the first header containing `isin` case-insensitively, else
column index 2 when the table has more than 2 columns. -/
def findIsinCol (cols : List String) : Option Nat :=
  if cols.contains "ISIN" then cols.findIdx? (· == "ISIN")
  else
    match cols.findIdx? (fun c => strContainsSub (strLower c) "isin") with
    | some i => some i
    | none => if cols.length > 2 then some 2 else none

/-- The strict tier regex `^IT\d{11}$` of `clean_isin_column`. -/
def isStrictIsin (s : String) : Bool :=
  match s.data with
  | 'I' :: 'T' :: rest => rest.length == 11 && rest.all Char.isDigit
  | _ => false

/-- Does the character list start with `IT` followed by a digit? -/
def startsITDigit : List Char → Bool
  | c1 :: c2 :: c3 :: _ => c1 == 'I' && c2 == 'T' && c3.isDigit
  | _ => false

/-- Is `IT` followed by a digit present anywhere (regex search `IT\d+`)? -/
def hasITDigits : List Char → Bool
  | [] => false
  | c :: rest => startsITDigit (c :: rest) || hasITDigits rest

/-- The relaxed tier regex `IT\d+` (searched anywhere in the string). -/
def isRelaxedIsin (s : String) : Bool := hasITDigits s.data

/-- The last-resort tier of `clean_isin_column`: non-empty, non-`nan`
(after `astype(str)` no value is null, so `notna()` always holds). -/
def isNonEmptyIsin (s : String) : Bool := s ≠ "" && s ≠ "nan"

/-- `astype(str)` applied to the cell of one row at column `i`. -/
def stringifyAt (i : Nat) (r : List Cell) : List Cell :=
  r.set i (Cell.str (cellToStr (cellAt r i)))

/-- String value of the identifier cell of a row. -/
def isinStrAt (i : Nat) (r : List Cell) : String := cellToStr (cellAt r i)

/-- Embedding of `clean_isin_column` (`parser.py`): locate the identifier
column (returning the table unchanged when none is found), rename it to
`ISIN`, stringify it, then keep the rows of the first matching tier:
strict pattern, relaxed pattern, then any non-empty non-`nan` value. -/
def clean_isin_column (t : Table) : Table :=
  match findIsinCol t.cols with
  | none => t
  | some i =>
    let cols := t.cols.set i "ISIN"
    let rows := t.rows.map (stringifyAt i)
    let strictRows := rows.filter (fun r => isStrictIsin (isinStrAt i r))
    if strictRows.length ≠ 0 then ⟨cols, strictRows⟩
    else
      let relaxedRows := rows.filter (fun r => isRelaxedIsin (isinStrAt i r))
      if relaxedRows.length ≠ 0 then ⟨cols, relaxedRows⟩
      else ⟨cols, rows.filter (fun r => isNonEmptyIsin (isinStrAt i r))⟩

/-- The strict tier accepts exactly `IT` followed by eleven digits. -/
theorem isStrictIsin_iff (s : String) :
    isStrictIsin s = true ↔
      ∃ rest, s.data = 'I' :: 'T' :: rest ∧ rest.length = 11
        ∧ rest.all Char.isDigit = true := by
  rw [isStrictIsin]
  split
  next rest heq =>
    simp only [Bool.and_eq_true, beq_iff_eq]
    constructor
    · rintro ⟨h1, h2⟩
      exact ⟨rest, heq, h1, h2⟩
    · rintro ⟨rest', heq', h1, h2⟩
      rw [heq] at heq'
      cases heq'
      exact ⟨h1, h2⟩
  next hne =>
    simp only [Bool.false_eq_true, false_iff]
    rintro ⟨rest, heq, -, -⟩
    exact hne rest heq

/-- The relaxed tier accepts exactly the strings containing `IT`
immediately followed by a digit. -/
theorem hasITDigits_iff (cs : List Char) :
    hasITDigits cs = true ↔
      ∃ pre d post, cs = pre ++ 'I' :: 'T' :: d :: post ∧ d.isDigit = true := by
  induction cs with
  | nil =>
    simp only [hasITDigits, Bool.false_eq_true, false_iff]
    rintro ⟨pre, d, post, heq, -⟩
    exact absurd heq (by simp)
  | cons c rest ih =>
    simp only [hasITDigits, Bool.or_eq_true]
    constructor
    · rintro (hs | hr)
      · rcases rest with _ | ⟨c2, rest2⟩
        · exact absurd hs (by simp [startsITDigit])
        rcases rest2 with _ | ⟨c3, rest3⟩
        · exact absurd hs (by simp [startsITDigit])
        simp only [startsITDigit, Bool.and_eq_true, beq_iff_eq] at hs
        obtain ⟨⟨h1, h2⟩, h3⟩ := hs
        subst h1
        subst h2
        exact ⟨[], c3, rest3, rfl, h3⟩
      · obtain ⟨pre, d, post, heq, hd⟩ := ih.1 hr
        exact ⟨c :: pre, d, post, by simp [heq], hd⟩
    · rintro ⟨pre, d, post, heq, hd⟩
      cases pre with
      | nil =>
        left
        simp only [List.nil_append] at heq
        cases heq
        simp [startsITDigit, hd]
      | cons p ps =>
        right
        apply ih.2
        refine ⟨ps, d, post, ?_, hd⟩
        simpa using congrArg List.tail heq

/-- Claim C1: for every classified table, the identifier filter tries
three tiers in fixed order (strict `^IT\d{11}$`, relaxed `IT` followed by
digits anywhere, then any non-empty non-`nan` value), attempting a tier
only if the previous tier matched zero rows, and returns exactly the rows
matched by the first tier that matches at least one row; in particular,
with zero strict matches and at least one relaxed match it returns
exactly the relaxed-matching rows. -/
theorem claim_C1 (t : Table) (i : Nat) (hdet : findIsinCol t.cols = some i) :
    ((t.rows.map (stringifyAt i)).filter (fun r => isStrictIsin (isinStrAt i r)) ≠ [] →
      (clean_isin_column t).rows
        = (t.rows.map (stringifyAt i)).filter (fun r => isStrictIsin (isinStrAt i r))) ∧
    ((t.rows.map (stringifyAt i)).filter (fun r => isStrictIsin (isinStrAt i r)) = [] →
      (t.rows.map (stringifyAt i)).filter (fun r => isRelaxedIsin (isinStrAt i r)) ≠ [] →
      (clean_isin_column t).rows
        = (t.rows.map (stringifyAt i)).filter (fun r => isRelaxedIsin (isinStrAt i r))) ∧
    ((t.rows.map (stringifyAt i)).filter (fun r => isStrictIsin (isinStrAt i r)) = [] →
      (t.rows.map (stringifyAt i)).filter (fun r => isRelaxedIsin (isinStrAt i r)) = [] →
      (clean_isin_column t).rows
        = (t.rows.map (stringifyAt i)).filter (fun r => isNonEmptyIsin (isinStrAt i r))) := by
  refine ⟨?_, ?_, ?_⟩ <;> intro h1 <;>
    simp only [clean_isin_column, hdet] <;>
    simp only [ne_eq, List.length_eq_zero]
  · rw [if_pos (by simpa using h1)]
  · intro h2
    rw [if_neg (by simpa using h1), if_pos (by simpa using h2)]
  · intro h2
    rw [if_neg (by simpa using h1), if_neg (by simpa using h2)]

/-- Witness for C1: a table with zero strict matches and one relaxed
match returns exactly the relaxed-matching row. -/
theorem claim_C1_witness :
    (clean_isin_column ⟨["ISIN"], [[Cell.str "XIT5A"], [Cell.str "nan"]]⟩).rows
      = [[Cell.str "XIT5A"]] := by
  have h := (claim_C1 ⟨["ISIN"], [[Cell.str "XIT5A"], [Cell.str "nan"]]⟩ 0 (by decide)).2.1
    (by decide) (by decide)
  rw [h]
  decide

/-! ## Sorting (`pandas.sort_values`, Python `sorted`) -/

/-- Insert `a` into `l` before the first element not below it. -/
def ordInsert {α : Type} (le : α → α → Bool) (a : α) : List α → List α
  | [] => [a]
  | b :: bs => if le a b then a :: b :: bs else b :: ordInsert le a bs

/-- Insertion sort by a boolean comparison. -/
def sortBy {α : Type} (le : α → α → Bool) : List α → List α
  | [] => []
  | a :: as => ordInsert le a (sortBy le as)

theorem ordInsert_perm {α : Type} (le : α → α → Bool) (a : α) (l : List α) :
    (ordInsert le a l).Perm (a :: l) := by
  induction l with
  | nil => exact List.Perm.refl _
  | cons b bs ih =>
    rw [ordInsert]
    by_cases h : le a b
    · rw [if_pos h]
    · rw [if_neg h]
      exact (ih.cons b).trans (List.Perm.swap a b bs)

theorem sortBy_perm {α : Type} (le : α → α → Bool) (l : List α) :
    (sortBy le l).Perm l := by
  induction l with
  | nil => exact List.Perm.refl _
  | cons a as ih =>
    exact (ordInsert_perm le a (sortBy le as)).trans (ih.cons a)

theorem mem_sortBy {α : Type} (le : α → α → Bool) (l : List α) (x : α) :
    x ∈ sortBy le l ↔ x ∈ l :=
  (sortBy_perm le l).mem_iff

theorem mem_ordInsert {α : Type} (le : α → α → Bool) (a : α) (l : List α) (x : α) :
    x ∈ ordInsert le a l ↔ x = a ∨ x ∈ l := by
  have := (ordInsert_perm le a l).mem_iff (a := x)
  simpa using this

theorem ordInsert_pairwise {α : Type} (le : α → α → Bool)
    (htot : ∀ a b, le a b = true ∨ le b a = true)
    (htrans : ∀ a b c, le a b = true → le b c = true → le a c = true)
    (a : α) (l : List α) (h : l.Pairwise (fun x y => le x y = true)) :
    (ordInsert le a l).Pairwise (fun x y => le x y = true) := by
  induction l with
  | nil => simp [ordInsert]
  | cons b bs ih =>
    rw [List.pairwise_cons] at h
    obtain ⟨hb, hbs⟩ := h
    rw [ordInsert]
    by_cases hab : le a b
    · rw [if_pos hab]
      refine List.Pairwise.cons ?_ (List.Pairwise.cons hb hbs)
      intro x hx
      rcases List.mem_cons.1 hx with hxb | hxbs
      · subst hxb
        exact hab
      · exact htrans a b x hab (hb x hxbs)
    · rw [if_neg hab]
      refine List.Pairwise.cons ?_ (ih hbs)
      intro x hx
      rcases (mem_ordInsert le a bs x).1 hx with hxa | hxbs
      · subst hxa
        rcases htot x b with h1 | h2
        · exact absurd h1 hab
        · exact h2
      · exact hb x hxbs

theorem sortBy_pairwise {α : Type} (le : α → α → Bool)
    (htot : ∀ a b, le a b = true ∨ le b a = true)
    (htrans : ∀ a b c, le a b = true → le b c = true → le a c = true)
    (l : List α) : (sortBy le l).Pairwise (fun x y => le x y = true) := by
  induction l with
  | nil => simp [sortBy]
  | cons a as ih => exact ordInsert_pairwise le htot htrans a (sortBy le as) ih

theorem sortBy_nodup {α : Type} (le : α → α → Bool) (l : List α) (h : l.Nodup) :
    (sortBy le l).Nodup := (sortBy_perm le l).nodup_iff.2 h

/-! ## Date parsing and the month partitioner (`get_month_data`) -/

/-- Embedding of Python `str.split('/')`. -/
def splitSlash : List Char → List (List Char)
  | [] => [[]]
  | c :: rest =>
    if c = '/' then [] :: splitSlash rest
    else
      match splitSlash rest with
      | [] => [[c]]
      | g :: gs => (c :: g) :: gs

/-- Is `(y, m, d)` a real calendar date in the `datetime` year range? -/
def validDMY (d m y : Nat) : Bool :=
  decide (1 ≤ y) && decide (y ≤ 9999) && decide (1 ≤ m) && decide (m ≤ 12)
    && decide (1 ≤ d) && decide (d ≤ daysInMonth y m)

/-- Parse the Italian `DD/MM/YYYY` text form (`DATE_FORMAT_INPUT`,
`dayfirst := True`); anything else is unparseable. -/
def parseDMY (s : String) : Option CalDate :=
  match splitSlash s.data with
  | [ds, ms, ys] =>
    match parseNatChars ds, parseNatChars ms, parseNatChars ys with
    | some d, some m, some y => if validDMY d m y then some ⟨y, m, d⟩ else none
    | _, _, _ => none
  | _ => none

/-- Model of `pd.to_datetime(x, dayfirst := True, errors := 'coerce')` on one
cell: datetimes pass through unchanged, text is parsed as `DD/MM/YYYY`,
everything else coerces to `NaT`. -/
def toDatetimeCell (c : Cell) : Cell :=
  match c with
  | .date dt => .date dt
  | .str s =>
    match parseDMY s with
    | some dt => .date dt
    | none => .na
  | _ => .na

/-- Does the cell hold a (parsed) datetime? `notna()` on the converted
date column. -/
def isDateCell (c : Cell) : Bool :=
  match c with
  | .date _ => true
  | _ => false

/-- Date-column detection of `get_month_data`: the exact header
`data asta`, else the first header containing `data` or `date`
case-insensitively, else column index 0 when any column exists. -/
def findDateCol (cols : List String) : Option Nat :=
  if cols.contains "data asta" then cols.findIdx? (· == "data asta")
  else
    match cols.findIdx? (fun c =>
        strContainsSub (strLower c) "data" || strContainsSub (strLower c) "date") with
    | some i => some i
    | none => if cols.length > 0 then some 0 else none

/-- A table together with the detected (renamed) date-column index, after
`to_datetime` conversion and removal of rows with invalid dates. -/
structure MonthTable where
  cols : List String
  dateIdx : Nat
  rows : List (List Cell)
deriving DecidableEq, Repr

/-- The shared front part of `get_month_data`: detect the date column (or
give up), rename it to `data asta`, convert it to datetimes, and drop the
rows whose date is `NaT`. -/
def monthPrep (t : Table) : Option MonthTable :=
  match findDateCol t.cols with
  | none => none
  | some i =>
    let rows := t.rows.map (fun r => r.set i (toDatetimeCell (cellAt r i)))
    some ⟨t.cols.set i "data asta", i, rows.filter (fun r => isDateCell (cellAt r i))⟩

/-- The `(year, month)` of the date cell of a row (`dt.to_period('M')`). -/
def monthOfRow (i : Nat) (r : List Cell) : Nat × Nat :=
  match cellAt r i with
  | .date dt => (dt.y, dt.m)
  | _ => (0, 0)

/-- Chronological order on `(year, month)` pairs (`Period` ordering). -/
def monthLe (a b : Nat × Nat) : Bool :=
  decide (a.1 < b.1 ∨ (a.1 = b.1 ∧ a.2 ≤ b.2))

/-- `df['month'] = df['data asta'].dt.to_period('M')`: append the derived
month column to a row. -/
def augRow (i : Nat) (r : List Cell) : List Cell :=
  r ++ [Cell.period (monthOfRow i r).1 (monthOfRow i r).2]

/-- `max()` of a month column (the `auto` selection mode). -/
def maxMonth (l : List (Nat × Nat)) : Nat × Nat :=
  l.foldl (fun a b => if monthLe a b then b else a) (0, 0)

/-- `sorted(df['month'].unique())`: the distinct months, ascending. -/
def monthsOf (mt : MonthTable) : List (Nat × Nat) :=
  sortBy monthLe ((mt.rows.map (monthOfRow mt.dateIdx)).dedup)

/-- `df[df['month'] == month]`: the rows of one month, with the derived
`month` column appended. -/
def monthBucket (mt : MonthTable) (μ : Nat × Nat) : Table :=
  ⟨mt.cols ++ ["month"],
   (mt.rows.filter (fun r => decide (monthOfRow mt.dateIdx r = μ))).map
     (augRow mt.dateIdx)⟩

/-- Embedding of `get_month_data(df, process_all := True)`: the ordered
month-label-to-bucket mapping. -/
def getMonthDataAll (t : Table) : List (String × Table) :=
  match monthPrep t with
  | none => []
  | some mt =>
    if mt.rows.length = 0 then []
    else (monthsOf mt).map (fun μ => (periodStr μ.1 μ.2, monthBucket mt μ))

/-- Embedding of `get_month_data(df, target_month, process_all := False)`:
a single bucket plus its month label (empty label when no date column was
found or no valid dates remain). -/
def getMonthDataSingle (t : Table) (target : Option (Nat × Nat)) : Table × String :=
  match monthPrep t with
  | none => (t, "")
  | some mt =>
    if mt.rows.length = 0 then (⟨mt.cols, []⟩, "")
    else
      match target with
      | some (y, m) =>
        if mt.rows.any (fun r => decide (monthOfRow mt.dateIdx r = (y, m))) then
          (monthBucket mt (y, m), periodStr y m)
        else (⟨mt.cols ++ ["month"], []⟩, periodStr y m)
      | none =>
        let mx := maxMonth (mt.rows.map (monthOfRow mt.dateIdx))
        (monthBucket mt mx, periodStr mx.1 mx.2)

theorem monthPrep_valid (t : Table) (mt : MonthTable) (hp : monthPrep t = some mt) :
    ∀ r ∈ mt.rows, isDateCell (cellAt r mt.dateIdx) = true := by
  rw [monthPrep] at hp
  rcases hfd : findDateCol t.cols with - | i <;> rw [hfd] at hp
  · exact absurd hp (by simp)
  · have := (Option.some_inj.1 hp).symm
    subst this
    intro r hr
    exact (List.mem_filter.1 hr).2

theorem isDateCell_lt_length (r : List Cell) (i : Nat)
    (h : isDateCell (cellAt r i) = true) : i < r.length := by
  by_contra hge
  rw [cellAt, List.getD_eq_default _ _ (by omega)] at h
  simp [isDateCell] at h

theorem cellAt_augRow (r : List Cell) (i j : Nat) (h : i < r.length) :
    cellAt (augRow j r) i = cellAt r i := by
  rw [augRow, cellAt, cellAt, List.getD_append _ _ _ _ h]

theorem monthOfRow_augRow (r : List Cell) (i : Nat)
    (h : isDateCell (cellAt r i) = true) :
    monthOfRow i (augRow i r) = monthOfRow i r := by
  rw [monthOfRow, monthOfRow, cellAt_augRow r i i (isDateCell_lt_length r i h)]

theorem getMonthDataAll_eq (t : Table) (mt : MonthTable) (hp : monthPrep t = some mt)
    (hz : ¬ mt.rows.length = 0) :
    getMonthDataAll t = (monthsOf mt).map (fun μ => (periodStr μ.1 μ.2, monthBucket mt μ)) := by
  rw [getMonthDataAll, hp]
  simp [hz]

theorem getMonthDataAll_length (t : Table) (mt : MonthTable) (hp : monthPrep t = some mt)
    (hz : ¬ mt.rows.length = 0) :
    (getMonthDataAll t).length = (monthsOf mt).length := by
  rw [getMonthDataAll_eq t mt hp hz, List.length_map]

theorem getMonthDataAll_get (t : Table) (mt : MonthTable) (hp : monthPrep t = some mt)
    (hz : ¬ mt.rows.length = 0) (k : Nat) (hk : k < (getMonthDataAll t).length)
    (hk2 : k < (monthsOf mt).length) :
    (getMonthDataAll t).get ⟨k, hk⟩
      = (periodStr ((monthsOf mt).get ⟨k, hk2⟩).1 ((monthsOf mt).get ⟨k, hk2⟩).2,
         monthBucket mt ((monthsOf mt).get ⟨k, hk2⟩)) := by
  have hEq := getMonthDataAll_eq t mt hp hz
  revert hk
  rw [hEq]
  intro hk
  rw [List.get_eq_getElem, List.getElem_map, List.get_eq_getElem]

theorem mem_monthsOf (mt : MonthTable) (μ : Nat × Nat) :
    μ ∈ monthsOf mt ↔ μ ∈ mt.rows.map (monthOfRow mt.dateIdx) := by
  rw [monthsOf, mem_sortBy, List.mem_dedup]

theorem monthsOf_nodup (mt : MonthTable) : (monthsOf mt).Nodup :=
  sortBy_nodup _ _ (List.nodup_dedup _)

theorem mem_monthBucket (mt : MonthTable) (μ : Nat × Nat) (x : List Cell) :
    x ∈ (monthBucket mt μ).rows
      ↔ ∃ r ∈ mt.rows, monthOfRow mt.dateIdx r = μ ∧ x = augRow mt.dateIdx r := by
  rw [monthBucket]
  simp only [List.mem_map, List.mem_filter, decide_eq_true_eq]
  constructor
  · rintro ⟨r, ⟨hr, hμ⟩, hx⟩
    exact ⟨r, hr, hμ, hx.symm⟩
  · rintro ⟨r, hr, hμ, hx⟩
    exact ⟨r, ⟨hr, hμ⟩, hx.symm⟩

/-- Claim C5: in selection mode `all`, every valid-date row lands in
exactly one month bucket, whose label is the `YYYY-MM` rendering of the
row's calendar month; and every bucket member comes from a valid-date row
(so rows with unparseable dates appear in no bucket). -/
theorem claim_C5 (t : Table) (mt : MonthTable) (hp : monthPrep t = some mt) :
    (∀ r ∈ mt.rows,
      ∃ k, ∃ hk : k < (getMonthDataAll t).length,
        ((getMonthDataAll t).get ⟨k, hk⟩).1
          = periodStr (monthOfRow mt.dateIdx r).1 (monthOfRow mt.dateIdx r).2 ∧
        augRow mt.dateIdx r ∈ ((getMonthDataAll t).get ⟨k, hk⟩).2.rows ∧
        ∀ k' (hk' : k' < (getMonthDataAll t).length),
          augRow mt.dateIdx r ∈ ((getMonthDataAll t).get ⟨k', hk'⟩).2.rows → k' = k) ∧
    (∀ k (hk : k < (getMonthDataAll t).length),
      ∀ x ∈ ((getMonthDataAll t).get ⟨k, hk⟩).2.rows,
        ∃ r ∈ mt.rows, x = augRow mt.dateIdx r
          ∧ isDateCell (cellAt x mt.dateIdx) = true) := by
  by_cases hz : mt.rows.length = 0
  · have hnil : mt.rows = [] := List.length_eq_zero.1 hz
    constructor
    · intro r hr
      rw [hnil] at hr
      exact absurd hr (by simp)
    · intro k hk
      rw [getMonthDataAll, hp] at hk
      simp [hz] at hk
  · constructor
    · intro r hr
      have hμ : monthOfRow mt.dateIdx r ∈ monthsOf mt :=
        (mem_monthsOf mt _).2 (List.mem_map_of_mem _ hr)
      obtain ⟨n, hn⟩ := List.mem_iff_get.1 hμ
      have hkB : n.1 < (getMonthDataAll t).length := by
        rw [getMonthDataAll_length t mt hp hz]
        exact n.2
      refine ⟨n.1, hkB, ?_, ?_, ?_⟩
      · rw [getMonthDataAll_get t mt hp hz n.1 hkB n.2]
        have : (monthsOf mt).get ⟨n.1, n.2⟩ = monthOfRow mt.dateIdx r := hn
        rw [this]
      · rw [getMonthDataAll_get t mt hp hz n.1 hkB n.2]
        have hget : (monthsOf mt).get ⟨n.1, n.2⟩ = monthOfRow mt.dateIdx r := hn
        rw [hget]
        exact (mem_monthBucket mt _ _).2 ⟨r, hr, rfl, rfl⟩
      · intro k' hk' hmem
        have hk2' : k' < (monthsOf mt).length := by
          rw [getMonthDataAll_length t mt hp hz] at hk'
          exact hk'
        rw [getMonthDataAll_get t mt hp hz k' hk' hk2'] at hmem
        obtain ⟨r', hr'rows, hr'month, hr'eq⟩ := (mem_monthBucket mt _ _).1 hmem
        have hvr : isDateCell (cellAt r mt.dateIdx) = true :=
          monthPrep_valid t mt hp r hr
        have hvr' : isDateCell (cellAt r' mt.dateIdx) = true :=
          monthPrep_valid t mt hp r' hr'rows
        have hsame : monthOfRow mt.dateIdx r' = monthOfRow mt.dateIdx r := by
          have h1 := monthOfRow_augRow r' mt.dateIdx hvr'
          have h2 := monthOfRow_augRow r mt.dateIdx hvr
          rw [← h1, ← hr'eq, h2]
        have hget : (monthsOf mt).get ⟨k', hk2'⟩ = (monthsOf mt).get n := by
          rw [← hr'month, hsame, hn]
        have := (List.Nodup.get_inj_iff (monthsOf_nodup mt)).1 hget
        have hfin : (⟨k', hk2'⟩ : Fin (monthsOf mt).length) = n := this
        exact congrArg Fin.val hfin
    · intro k hk x hx
      have hk2 : k < (monthsOf mt).length := by
        rw [getMonthDataAll_length t mt hp hz] at hk
        exact hk
      rw [getMonthDataAll_get t mt hp hz k hk hk2] at hx
      obtain ⟨r, hrrows, -, hreq⟩ := (mem_monthBucket mt _ _).1 hx
      have hv : isDateCell (cellAt r mt.dateIdx) = true :=
        monthPrep_valid t mt hp r hrrows
      refine ⟨r, hrrows, hreq, ?_⟩
      rw [hreq, cellAt_augRow r mt.dateIdx mt.dateIdx (isDateCell_lt_length r mt.dateIdx hv)]
      exact hv

/-- Witness for C5 at a concrete two-month table. -/
theorem claim_C5_witness :
    ∃ k, ∃ hk : k < (getMonthDataAll ⟨["data asta"],
        [[Cell.date ⟨2025, 1, 10⟩], [Cell.date ⟨2025, 2, 5⟩]]⟩).length,
      ((getMonthDataAll ⟨["data asta"],
        [[Cell.date ⟨2025, 1, 10⟩], [Cell.date ⟨2025, 2, 5⟩]]⟩).get ⟨k, hk⟩).1
        = "2025-01" := by
  obtain ⟨hA, -⟩ := claim_C5
    ⟨["data asta"], [[Cell.date ⟨2025, 1, 10⟩], [Cell.date ⟨2025, 2, 5⟩]]⟩
    ⟨["data asta"], 0, [[Cell.date ⟨2025, 1, 10⟩], [Cell.date ⟨2025, 2, 5⟩]]⟩
    (by decide)
  obtain ⟨k, hk, hlabel, -, -⟩ := hA [Cell.date ⟨2025, 1, 10⟩] (by decide)
  refine ⟨k, hk, ?_⟩
  rw [hlabel]
  decide

/-- Counterexample for C7 as stated: on a table whose only row has an
unparseable date, no filtered row falls in the requested month `2025-01`,
yet the partitioner labels the empty result with `""` rather than with
the requested month. -/
theorem claim_C7_counterexample :
    getMonthDataSingle ⟨["data asta"], [[Cell.str "oops"]]⟩ (some (2025, 1))
      = (⟨["data asta"], []⟩, "") ∧ ("" : String) ≠ periodStr 2025 1 := by
  constructor
  · decide
  · decide

/-- Claim C7 (amended): for selection mode `specific(year, month)`, when
the filtered table still contains at least one row with a valid date but
none of them falls in the requested month, the partitioner returns an
empty row set paired with the label of the requested month in `YYYY-MM`
format (when every date is unparseable it instead returns the empty label
`""`, see the counterexample). -/
theorem claim_C7 (t : Table) (mt : MonthTable) (y m : Nat)
    (hp : monthPrep t = some mt) (hne : ¬ mt.rows.length = 0)
    (habs : ∀ r ∈ mt.rows, monthOfRow mt.dateIdx r ≠ (y, m)) :
    getMonthDataSingle t (some (y, m))
      = (⟨mt.cols ++ ["month"], []⟩, periodStr y m) := by
  have hany : (mt.rows.any (fun r => decide (monthOfRow mt.dateIdx r = (y, m)))) = false := by
    rw [List.any_eq_false]
    intro r hr
    simpa using habs r hr
  simp only [getMonthDataSingle, hp, if_neg hne, hany, Bool.false_eq_true, if_false]

/-- Witness for the amended C7 at a concrete table whose only valid date
falls in a different month. -/
theorem claim_C7_witness :
    getMonthDataSingle ⟨["data asta"], [[Cell.date ⟨2025, 3, 10⟩]]⟩ (some (2025, 1))
      = (⟨["data asta", "month"], []⟩, "2025-01") := by
  have h := claim_C7 ⟨["data asta"], [[Cell.date ⟨2025, 3, 10⟩]]⟩
    ⟨["data asta"], 0, [[Cell.date ⟨2025, 3, 10⟩]]⟩ 2025 1
    (by decide) (by decide) (by decide)
  rw [h]
  decide

/-! ## Metrics, series and the data artifact (`create_data_file_xls`)

`config.py` fixes the 5 metric kinds, their suffixes, human-readable
labels, source columns, and the output order `OFR, MIN, MAX, REQ, ASGN`. -/

inductive Metric where
  | OFR | MIN | MAX | REQ | ASGN
deriving DecidableEq, Repr

/-- `TIME_SERIES_ORDER` of `config.py`. -/
def TIME_SERIES_ORDER : List Metric := [.OFR, .MIN, .MAX, .REQ, .ASGN]

/-- The `suffix` field of `TIME_SERIES_MAPPING`. -/
def metricSuffix : Metric → String
  | .OFR => "OFR.ITBI.D"
  | .MIN => "MIN.ITBI.D"
  | .MAX => "MAX.ITBI.D"
  | .REQ => "REQ.ITBI.D"
  | .ASGN => "ASGN.ITBI.D"

/-- The `description` field of `TIME_SERIES_MAPPING`. -/
def metricLabel : Metric → String
  | .OFR => "amounts:offered"
  | .MIN => "amounts:minimum offered"
  | .MAX => "amounts:maximum offered"
  | .REQ => "amounts:required"
  | .ASGN => "amounts:assigned"

/-- `column_mapping` of `create_time_series_data` composed with the
`source_column` field of `TIME_SERIES_MAPPING`: fixed indices 9..13. -/
def metricColIdx : Metric → Nat
  | .OFR => 9
  | .MIN => 10
  | .MAX => 11
  | .REQ => 12
  | .ASGN => 13

/-- One point of a per-metric time series: an output-formatted date
string paired with the raw source cell. -/
structure TSPoint where
  date : String
  value : Cell
deriving DecidableEq, Repr

/-- One metric's `ts_df` (`date`/`value` columns). -/
abbrev TSeries := List TSPoint

/-- The `time_series` dict of one identifier: it always carries exactly
the five metric keys, so it is modeled as a total function. -/
abbrev SeriesMap := Metric → TSeries

/-- The synthesized series code `{isin}.{suffix}`. -/
def tsCode (isin : String) (mk : Metric) : String := isin ++ "." ++ metricSuffix mk

/-- The synthesized series description `ISIN:{isin};{description}:{label}`. -/
def tsDesc (isin desc : String) (mk : Metric) : String :=
  "ISIN:" ++ isin ++ ";" ++ desc ++ ":" ++ metricLabel mk

/-- String comparison used by Python `sorted` on date strings. -/
def strLeB (a b : String) : Bool := decide (a ≤ b)

/-- All dates of all 5 series, in dict-iteration order. -/
def allDatesOf (ts : SeriesMap) : List String :=
  (TIME_SERIES_ORDER.map (fun mk => (ts mk).map (·.date))).flatten

/-- `sorted(set(...))` over the union of the 5 series' dates. -/
def sortedDatesOf (ts : SeriesMap) : List String := sortBy strLeB ((allDatesOf ts).dedup)

/-- The cell written for one raw value: missing values become blanks
(the `value is None or value != value` check). -/
def renderVal (c : Cell) : Cell :=
  match c with
  | .na => Cell.str ""
  | v => v

/-- The cell rendered for one metric at one date:
`ts_df[ts_df['date'] == date]` takes the first matching row, whose value
is written unless it is missing; no matching row writes a blank. -/
def tsCellFor (s : TSeries) (d : String) : Cell :=
  match s.find? (fun p => p.date == d) with
  | none => Cell.str ""
  | some p => renderVal p.value

/-- Embedding of `create_data_file_xls` (`file_generator_xls.py`): the
cell grid written to the `DATA` sheet, row-major. Row 1 holds a blank
then the 5 codes, row 2 a blank then the 5 descriptions, and rows 3+
one row per distinct date with the date then the 5 values. -/
def create_data_file_xls (isin : String) (ts : SeriesMap) (desc : String) : List (List Cell) :=
  (Cell.str "" :: TIME_SERIES_ORDER.map (fun mk => Cell.str (tsCode isin mk)))
  :: (Cell.str "" :: TIME_SERIES_ORDER.map (fun mk => Cell.str (tsDesc isin desc mk)))
  :: (sortedDatesOf ts).map (fun d =>
      Cell.str d :: TIME_SERIES_ORDER.map (fun mk => tsCellFor (ts mk) d))

theorem get_map_list {α β : Type} (f : α → β) (l : List α) (j : Nat)
    (hj : j < l.length) (hj2 : j < (l.map f).length) :
    (l.map f).get ⟨j, hj2⟩ = f (l.get ⟨j, hj⟩) := by
  rw [List.get_eq_getElem, List.getElem_map, List.get_eq_getElem]

theorem strLeB_total (a b : String) : strLeB a b = true ∨ strLeB b a = true := by
  rcases le_total a b with h | h
  · left
    simpa [strLeB] using h
  · right
    simpa [strLeB] using h

theorem strLeB_trans (a b c : String)
    (h1 : strLeB a b = true) (h2 : strLeB b c = true) : strLeB a c = true := by
  simp only [strLeB, decide_eq_true_eq] at h1 h2 ⊢
  exact le_trans h1 h2

theorem sortedDatesOf_nodup (ts : SeriesMap) : (sortedDatesOf ts).Nodup :=
  sortBy_nodup _ _ (List.nodup_dedup _)

theorem mem_sortedDatesOf (ts : SeriesMap) (d : String) :
    d ∈ sortedDatesOf ts ↔ ∃ mk ∈ TIME_SERIES_ORDER, ∃ p ∈ ts mk, p.date = d := by
  rw [sortedDatesOf, mem_sortBy, List.mem_dedup, allDatesOf, List.mem_flatten]
  constructor
  · rintro ⟨l, hl, hd⟩
    obtain ⟨mk, hmk, rfl⟩ := List.mem_map.1 hl
    obtain ⟨p, hp, rfl⟩ := List.mem_map.1 hd
    exact ⟨mk, hmk, p, hp, rfl⟩
  · rintro ⟨mk, hmk, p, hp, rfl⟩
    exact ⟨(ts mk).map (·.date), List.mem_map_of_mem _ hmk, List.mem_map_of_mem _ hp⟩

theorem sortedDatesOf_sorted (ts : SeriesMap) :
    (sortedDatesOf ts).Pairwise (fun a b : String => a < b) := by
  have hle : (sortedDatesOf ts).Pairwise (fun a b : String => strLeB a b = true) :=
    sortBy_pairwise strLeB strLeB_total strLeB_trans _
  have hnd : (sortedDatesOf ts).Pairwise (fun a b : String => a ≠ b) := sortedDatesOf_nodup ts
  refine (hle.and hnd).imp ?_
  rintro a b ⟨h1, h2⟩
  simp only [strLeB, decide_eq_true_eq] at h1
  exact lt_of_le_of_ne h1 h2

/-- Claim C2: the data artifact is the blank-then-5-codes row, then the
blank-then-5-descriptions row, then exactly one row per distinct date of
the ascending union of the 5 series' dates, holding the output-formatted
date then each metric's value-or-blank, with the metric columns in the
fixed order OFR, MIN, MAX, REQ, ASGN. -/
theorem claim_C2 (isin desc : String) (ts : SeriesMap) :
    ∃ dataRows,
      create_data_file_xls isin ts desc
        = (Cell.str "" :: [Cell.str (tsCode isin .OFR), Cell.str (tsCode isin .MIN),
            Cell.str (tsCode isin .MAX), Cell.str (tsCode isin .REQ),
            Cell.str (tsCode isin .ASGN)])
          :: (Cell.str "" :: [Cell.str (tsDesc isin desc .OFR),
              Cell.str (tsDesc isin desc .MIN), Cell.str (tsDesc isin desc .MAX),
              Cell.str (tsDesc isin desc .REQ), Cell.str (tsDesc isin desc .ASGN)])
          :: dataRows ∧
      (tsCode isin .OFR = isin ++ ".OFR.ITBI.D" ∧
       tsCode isin .MIN = isin ++ ".MIN.ITBI.D" ∧
       tsCode isin .MAX = isin ++ ".MAX.ITBI.D" ∧
       tsCode isin .REQ = isin ++ ".REQ.ITBI.D" ∧
       tsCode isin .ASGN = isin ++ ".ASGN.ITBI.D") ∧
      (tsDesc isin desc .OFR = "ISIN:" ++ isin ++ ";" ++ desc ++ ":amounts:offered" ∧
       tsDesc isin desc .MIN = "ISIN:" ++ isin ++ ";" ++ desc ++ ":amounts:minimum offered" ∧
       tsDesc isin desc .MAX = "ISIN:" ++ isin ++ ";" ++ desc ++ ":amounts:maximum offered" ∧
       tsDesc isin desc .REQ = "ISIN:" ++ isin ++ ";" ++ desc ++ ":amounts:required" ∧
       tsDesc isin desc .ASGN = "ISIN:" ++ isin ++ ";" ++ desc ++ ":amounts:assigned") ∧
      dataRows.length = (sortedDatesOf ts).length ∧
      (sortedDatesOf ts).Pairwise (fun a b : String => a < b) ∧
      (∀ d, d ∈ sortedDatesOf ts ↔ ∃ mk ∈ TIME_SERIES_ORDER, ∃ p ∈ ts mk, p.date = d) ∧
      (∀ j (hj : j < (sortedDatesOf ts).length), ∃ hj2 : j < dataRows.length,
        dataRows.get ⟨j, hj2⟩
          = Cell.str ((sortedDatesOf ts).get ⟨j, hj⟩)
            :: [tsCellFor (ts .OFR) ((sortedDatesOf ts).get ⟨j, hj⟩),
                tsCellFor (ts .MIN) ((sortedDatesOf ts).get ⟨j, hj⟩),
                tsCellFor (ts .MAX) ((sortedDatesOf ts).get ⟨j, hj⟩),
                tsCellFor (ts .REQ) ((sortedDatesOf ts).get ⟨j, hj⟩),
                tsCellFor (ts .ASGN) ((sortedDatesOf ts).get ⟨j, hj⟩)]) := by
  refine ⟨(sortedDatesOf ts).map (fun d =>
      Cell.str d :: TIME_SERIES_ORDER.map (fun mk => tsCellFor (ts mk) d)),
    rfl, ?_, ?_, List.length_map _ _, sortedDatesOf_sorted ts, mem_sortedDatesOf ts, ?_⟩
  · refine ⟨?_, ?_, ?_, ?_, ?_⟩ <;> rw [tsCode, String.append_assoc] <;> rfl
  · refine ⟨?_, ?_, ?_, ?_, ?_⟩ <;> rw [tsDesc, String.append_assoc] <;> rfl
  · intro j hj
    refine ⟨by rw [List.length_map]; exact hj, ?_⟩
    rw [get_map_list _ _ j hj]
    rfl

/-- Witness for C2 at a one-point OFR-only series set. -/
theorem claim_C2_witness :
    ∃ dataRows,
      create_data_file_xls "IT0000000001"
        (fun mk => match mk with
          | Metric.OFR => [⟨"2025-01-10", Cell.num 5⟩]
          | _ => []) "BOT"
        = (Cell.str "" :: [Cell.str (tsCode "IT0000000001" .OFR),
            Cell.str (tsCode "IT0000000001" .MIN), Cell.str (tsCode "IT0000000001" .MAX),
            Cell.str (tsCode "IT0000000001" .REQ), Cell.str (tsCode "IT0000000001" .ASGN)])
          :: (Cell.str "" :: [Cell.str (tsDesc "IT0000000001" "BOT" .OFR),
              Cell.str (tsDesc "IT0000000001" "BOT" .MIN),
              Cell.str (tsDesc "IT0000000001" "BOT" .MAX),
              Cell.str (tsDesc "IT0000000001" "BOT" .REQ),
              Cell.str (tsDesc "IT0000000001" "BOT" .ASGN)])
          :: dataRows ∧
      ∃ h0 : 0 < dataRows.length,
        dataRows.get ⟨0, h0⟩
          = [Cell.str "2025-01-10", Cell.num 5, Cell.str "", Cell.str "",
             Cell.str "", Cell.str ""] := by
  obtain ⟨dataRows, hshape, -, -, -, -, -, hE⟩ :=
    claim_C2 "IT0000000001" "BOT"
      (fun mk => match mk with
        | Metric.OFR => [⟨"2025-01-10", Cell.num 5⟩]
        | _ => [])
  obtain ⟨hj2, hrow⟩ := hE 0 (by decide)
  refine ⟨dataRows, hshape, hj2, ?_⟩
  rw [hrow]
  decide

/-! ## Metadata rows (`create_metadata_rows`, metadata schema of `config.py`) -/

/-- `METADATA_COLUMNS` of `config.py`: the 16 fixed schema columns. -/
def METADATA_COLUMNS : List String :=
  ["CODE", "DESCRIPTION", "FREQUENCY", "MULTIPLIER", "AGGREGATION_TYPE", "UNIT_TYPE",
   "DATA_TYPE", "DATA_UNIT", "SEASONALLY_ADJUSTED", "ANNUALIZED", "PROVIDER_MEASURE_URL",
   "PROVIDER", "SOURCE", "SOURCE_DESCRIPTION", "COUNTRY", "DATASET"]

/-- `BASE_URL` of `config.py`. -/
def BASE_URL : String :=
  "https://www.bancaditalia.it/compiti/operazioni-mef/risultati-aste/index.html"

/-- `METADATA_DEFAULTS` of `config.py`, in dict insertion order
(`MULTIPLIER` is the numeral 6, a float in the source). -/
def METADATA_DEFAULTS : List (String × Cell) :=
  [("FREQUENCY", .str "D"), ("MULTIPLIER", .num 6),
   ("AGGREGATION_TYPE", .str "END_OF_PERIOD"), ("UNIT_TYPE", .str "LEVEL"),
   ("DATA_TYPE", .str "CURRENCY"), ("DATA_UNIT", .str "EUR"),
   ("SEASONALLY_ADJUSTED", .str "NSA"), ("ANNUALIZED", .boolean false),
   ("PROVIDER_MEASURE_URL", .str BASE_URL), ("PROVIDER", .str "AfricaAI"),
   ("SOURCE", .str "BdIt"), ("SOURCE_DESCRIPTION", .str "Banca d\x27Italia"),
   ("COUNTRY", .str "ITA"), ("DATASET", .str "ITBI")]

/-- Python dict update `m[k] = v` on an insertion-ordered association
list: replace in place when the key exists, else append. -/
def dictSet (m : List (String × Cell)) (k : String) (v : Cell) : List (String × Cell) :=
  if m.any (fun kv => kv.1 == k) then m.map (fun kv => if kv.1 == k then (k, v) else kv)
  else m ++ [(k, v)]

/-- Python dict lookup `m.get(k)`. -/
def dictGet (m : List (String × Cell)) (k : String) : Option Cell :=
  (m.find? (fun kv => kv.1 == k)).map (·.2)

/-- One metadata row of `create_metadata_rows`: copy the defaults, set
`CODE` and `DESCRIPTION`, then add an empty string for every still
missing schema column. -/
def metadataRowFor (isin desc : String) (mk : Metric) : List (String × Cell) :=
  let r1 := dictSet METADATA_DEFAULTS "CODE" (.str (tsCode isin mk))
  let r2 := dictSet r1 "DESCRIPTION" (.str (tsDesc isin desc mk))
  METADATA_COLUMNS.foldl
    (fun m col => if m.any (fun kv => kv.1 == col) then m else m ++ [(col, .str "")]) r2

set_option linter.unusedVariables false in
/-- Embedding of `create_metadata_rows` (`parser.py`): one row per metric
kind, in `TIME_SERIES_ORDER`; the month argument is unused by the code. -/
def create_metadata_rows (isin desc : String) (current_month : String) :
    List (List (String × Cell)) :=
  TIME_SERIES_ORDER.map (metadataRowFor isin desc)

/-- Evaluation of one metadata row: `CODE` and `DESCRIPTION` are new keys
appended after the defaults, and the column-completion loop finds every
schema column already present. -/
theorem metadataRowFor_eq (isin desc : String) (mk : Metric) :
    metadataRowFor isin desc mk
      = METADATA_DEFAULTS
        ++ [("CODE", Cell.str (tsCode isin mk)),
            ("DESCRIPTION", Cell.str (tsDesc isin desc mk))] := by
  simp [metadataRowFor, dictSet, METADATA_DEFAULTS, METADATA_COLUMNS]

/-- A dict lookup succeeds exactly when the key is present. -/
theorem dictGet_isSome_iff (m : List (String × Cell)) (k : String) :
    (dictGet m k).isSome = true ↔ k ∈ m.map (·.1) := by
  induction m with
  | nil => simp [dictGet]
  | cons kv m ih =>
    rw [dictGet, List.find?_cons]
    rcases hp : (kv.1 == k) with - | -
    · have hk : ¬ k = kv.1 := by
        intro hc
        subst hc
        simp at hp
      rw [dictGet] at ih
      simp only [List.map_cons, List.mem_cons]
      simp [ih, hk]
    · have hk : k = kv.1 := (beq_iff_eq.1 hp).symm
      simp [hk]

/-- The keys of a synthesized metadata row, in dict insertion order. -/
theorem metadataRow_keys (isin desc : String) (mk : Metric) :
    (metadataRowFor isin desc mk).map (·.1)
      = ["FREQUENCY", "MULTIPLIER", "AGGREGATION_TYPE", "UNIT_TYPE", "DATA_TYPE",
         "DATA_UNIT", "SEASONALLY_ADJUSTED", "ANNUALIZED", "PROVIDER_MEASURE_URL",
         "PROVIDER", "SOURCE", "SOURCE_DESCRIPTION", "COUNTRY", "DATASET",
         "CODE", "DESCRIPTION"] := by
  rw [metadataRowFor_eq]
  rfl

set_option maxHeartbeats 1000000

/-- Claim C8: the metadata synthesizer produces exactly 5 rows, one per
metric kind in the fixed order; every row carries all 16 schema columns
and the fixed provider defaults; row `j`'s `CODE` is
`{identifier}.{suffix}` and its `DESCRIPTION` is
`ISIN:{identifier};{description}:{label}` for the `j`-th metric. -/
theorem claim_C8 (isin desc month : String) :
    (create_metadata_rows isin desc month).length = 5 ∧
    (∀ row ∈ create_metadata_rows isin desc month,
      ∀ c ∈ METADATA_COLUMNS, (dictGet row c).isSome = true) ∧
    (∀ row ∈ create_metadata_rows isin desc month,
      ∀ kv ∈ METADATA_DEFAULTS, dictGet row kv.1 = some kv.2) ∧
    (∀ j (hj : j < TIME_SERIES_ORDER.length),
      ∃ hj2 : j < (create_metadata_rows isin desc month).length,
        (create_metadata_rows isin desc month).get ⟨j, hj2⟩
          = metadataRowFor isin desc (TIME_SERIES_ORDER.get ⟨j, hj⟩)) ∧
    (∀ mk, dictGet (metadataRowFor isin desc mk) "CODE"
      = some (Cell.str (tsCode isin mk))) ∧
    (∀ mk, dictGet (metadataRowFor isin desc mk) "DESCRIPTION"
      = some (Cell.str (tsDesc isin desc mk))) := by
  refine ⟨rfl, ?_, ?_, ?_, ?_, ?_⟩
  · intro row hrow
    obtain ⟨mk, -, rfl⟩ := List.mem_map.1 hrow
    intro c hc
    rw [dictGet_isSome_iff, metadataRow_keys]
    fin_cases hc <;> simp
  · intro row hrow
    obtain ⟨mk, -, rfl⟩ := List.mem_map.1 hrow
    intro kv hkv
    fin_cases hkv <;> (rw [metadataRowFor_eq]; simp [dictGet, METADATA_DEFAULTS])
  · intro j hj
    refine ⟨by rw [create_metadata_rows, List.length_map]; exact hj, ?_⟩
    exact get_map_list _ _ j hj _
  · intro mk
    rw [metadataRowFor_eq]
    simp [dictGet, METADATA_DEFAULTS]
  · intro mk
    rw [metadataRowFor_eq]
    simp [dictGet, METADATA_DEFAULTS]

/-- Witness for C8 at a concrete identifier and description. -/
theorem claim_C8_witness :
    dictGet (metadataRowFor "IT0000000001" "BOT" Metric.OFR) "CODE"
      = some (Cell.str "IT0000000001.OFR.ITBI.D") ∧
    (create_metadata_rows "IT0000000001" "BOT" "2025-01").length = 5 := by
  obtain ⟨hlen, -, -, -, hcode, -⟩ := claim_C8 "IT0000000001" "BOT" "2025-01"
  refine ⟨?_, hlen⟩
  rw [hcode Metric.OFR]
  decide

set_option maxHeartbeats 200000

/-! ## Per-identifier series (`prepare_isin_data`, `create_time_series_data`)

Exceptions raised by pandas operations are modeled with `Except`. -/

/-- The exceptions the parser can run into (all are caught by the
`except` clause of `parse_auction_data`). -/
inductive PErr where
  | keyError (k : String)
  | indexError
  | typeError
deriving DecidableEq, Repr

deriving instance DecidableEq for Except

/-- Index of a column by exact name. -/
def colIdxOf (cols : List String) (name : String) : Option Nat :=
  cols.findIdx? (· == name)

/-- Chronological key of a datetime cell (non-datetimes sort first). -/
def dateKeyCell (c : Cell) : Nat :=
  match c with
  | .date dt => (dt.y * 100 + dt.m) * 100 + dt.d
  | _ => 0

/-- Row comparison used by `sort_values('data asta')`. -/
def rowDateLe (i : Nat) (r1 r2 : List Cell) : Bool :=
  decide (dateKeyCell (cellAt r1 i) ≤ dateKeyCell (cellAt r2 i))

/-- Is the date column of `datetime64` dtype (every cell a datetime or
`NaT`)? The `.dt` accessor raises otherwise. -/
def colIsDatetime (rows : List (List Cell)) (i : Nat) : Bool :=
  rows.all (fun r =>
    match cellAt r i with
    | .date _ => true
    | .na => true
    | _ => false)

/-- `convert_date_format`: `strftime('%Y-%m-%d')` of one date cell
(`NaT` formats to missing). -/
def dateStrCell (c : Cell) : Cell :=
  match c with
  | .date dt => .str (isoDate dt)
  | _ => .na

/-- Description-column detection of `prepare_isin_data`: first header
containing `descrizione` or `description` case-insensitively, else
column index 5 when the table has more than 5 columns. -/
def findDescCol (cols : List String) : Option Nat :=
  match cols.findIdx? (fun c =>
      strContainsSub (strLower c) "descrizione"
        || strContainsSub (strLower c) "description") with
  | some i => some i
  | none => if cols.length > 5 then some 5 else none

/-- The description extraction of `prepare_isin_data`: first row's cell
of the detected description column; empty when no column is found or the
found column name is falsy; `iloc[0]` raises on an empty table. -/
def descOfE (cols2 : List String) (rows2 : List (List Cell)) : Except PErr String :=
  match findDescCol cols2 with
  | none => .ok ""
  | some dc =>
    if cols2.getD dc "" = "" then .ok ""
    else
      match rows2.head? with
      | none => .error .indexError
      | some r0 => .ok (cellToStr (cellAt r0 dc))

/-- Embedding of `prepare_isin_data` (`parser.py`): filter the month's
rows to one identifier, sort ascending by auction date, append the
output-formatted `date_str` column, and read the description from the
first row of the detected description column. -/
def prepare_isin_dataE (t : Table) (isin : Cell) : Except PErr (Table × String) :=
  match colIdxOf t.cols "ISIN" with
  | none => .error (.keyError "ISIN")
  | some ii =>
    let filtered := t.rows.filter (fun r => cellAt r ii == isin)
    match colIdxOf t.cols "data asta" with
    | none => .error (.keyError "data asta")
    | some dd =>
      let sorted := sortBy (rowDateLe dd) filtered
      if colIsDatetime sorted dd then
        let cols2 := t.cols ++ ["date_str"]
        let rows2 := sorted.map (fun r => r ++ [dateStrCell (cellAt r dd)])
        (descOfE cols2 rows2).map (fun desc => (⟨cols2, rows2⟩, desc))
      else .error .typeError

/-- The date string held by a `date_str` cell. -/
def dateStrAt (r : List Cell) (j : Nat) : String :=
  match cellAt r j with
  | .str s => s
  | _ => ""

/-- Embedding of `create_time_series_data` (`parser.py`): for each metric
kind, pair each row's `date_str` with the cell of the fixed source column
index (9..13); an out-of-range index degrades to a missing value. -/
def create_time_series_dataE (t : Table) : Except PErr SeriesMap :=
  match colIdxOf t.cols "date_str" with
  | none => .error (.keyError "date_str")
  | some ds =>
    .ok (fun mk =>
      let ci := metricColIdx mk
      if ci < t.cols.length then
        t.rows.map (fun r => ⟨dateStrAt r ds, cellAt r ci⟩)
      else
        t.rows.map (fun r => ⟨dateStrAt r ds, Cell.na⟩))

theorem dateKeyCell_dateStrCell (c : Cell) : dateKeyCell (dateStrCell c) = 0 := by
  cases c <;> rfl

theorem dateKeyCell_aug (r : List Cell) (x : Cell) (dd : Nat) (hx : dateKeyCell x = 0) :
    dateKeyCell (cellAt (r ++ [x]) dd) = dateKeyCell (cellAt r dd) := by
  by_cases h : dd < r.length
  · rw [cellAt, cellAt, List.getD_append _ _ _ _ h]
  · have hr : r.getD dd Cell.na = Cell.na := List.getD_eq_default _ _ (by omega)
    rw [cellAt, cellAt, List.getD_append_right _ _ _ _ (by omega), hr]
    by_cases h2 : dd = r.length
    · have hz : dd - r.length = 0 := by omega
      rw [hz]
      show dateKeyCell x = dateKeyCell Cell.na
      rw [hx]
      rfl
    · have hx1 : [x].getD (dd - r.length) Cell.na = Cell.na :=
        List.getD_eq_default _ _ (by simp; omega)
      rw [hx1]

theorem find?_map_list {α β : Type} (f : α → β) (p : β → Bool) (l : List α) :
    (l.map f).find? p = (l.find? (fun a => p (f a))).map f := by
  induction l with
  | nil => rfl
  | cons a l ih =>
    rw [List.map_cons, List.find?_cons, List.find?_cons]
    rcases hp : p (f a) with - | -
    · simpa using ih
    · rfl

theorem rowDateLe_total (dd : Nat) (r1 r2 : List Cell) :
    rowDateLe dd r1 r2 = true ∨ rowDateLe dd r2 r1 = true := by
  simp only [rowDateLe, decide_eq_true_eq]
  omega

theorem rowDateLe_trans (dd : Nat) (r1 r2 r3 : List Cell)
    (h1 : rowDateLe dd r1 r2 = true) (h2 : rowDateLe dd r2 r3 = true) :
    rowDateLe dd r1 r3 = true := by
  simp only [rowDateLe, decide_eq_true_eq] at h1 h2 ⊢
  omega

theorem prepare_ok_eq (t : Table) (isin : Cell) (pt : Table) (desc : String)
    (ii dd : Nat) (hii : colIdxOf t.cols "ISIN" = some ii)
    (hdd : colIdxOf t.cols "data asta" = some dd)
    (h : prepare_isin_dataE t isin = .ok (pt, desc)) :
    pt = ⟨t.cols ++ ["date_str"],
      (sortBy (rowDateLe dd) (t.rows.filter (fun r => cellAt r ii == isin))).map
        (fun r => r ++ [dateStrCell (cellAt r dd)])⟩ := by
  simp only [prepare_isin_dataE, hii, hdd] at h
  split at h
  · rcases hD : descOfE (t.cols ++ ["date_str"])
        ((sortBy (rowDateLe dd) (t.rows.filter (fun r => cellAt r ii == isin))).map
          (fun r => r ++ [dateStrCell (cellAt r dd)])) with e | dsc <;> rw [hD] at h
    · exact absurd h (by simp [Except.map])
    · simp only [Except.map, Except.ok.injEq, Prod.mk.injEq] at h
      exact h.1.symm
  · exact absurd h (by simp)

theorem createTS_ok_eq (t2 : Table) (ts : SeriesMap) (ds : Nat)
    (hds : colIdxOf t2.cols "date_str" = some ds)
    (h : create_time_series_dataE t2 = .ok ts) :
    ts = fun mk =>
      if metricColIdx mk < t2.cols.length then
        t2.rows.map (fun r => ⟨dateStrAt r ds, cellAt r (metricColIdx mk)⟩)
      else t2.rows.map (fun r => ⟨dateStrAt r ds, Cell.na⟩) := by
  simp only [create_time_series_dataE, hds, Except.ok.injEq] at h
  exact h.symm

/-- Claim C3: with two or more rows sharing one auction date, all
duplicate-date rows are retained by the ascending sort, the data file
renders exactly one row for that date, and that row's metric cells carry
the value of the first row for that date in the sorted series. -/
theorem claim_C3 (t : Table) (isin : Cell) (ii dd : Nat) (pt : Table) (desc : String)
    (ts : SeriesMap) (ds : Nat) (d : String)
    (hii : colIdxOf t.cols "ISIN" = some ii)
    (hdd : colIdxOf t.cols "data asta" = some dd)
    (hprep : prepare_isin_dataE t isin = .ok (pt, desc))
    (hts : create_time_series_dataE pt = .ok ts)
    (hds : colIdxOf pt.cols "date_str" = some ds)
    (hdup : 2 ≤ (pt.rows.filter (fun r => dateStrAt r ds == d)).length) :
    pt.rows.Perm ((t.rows.filter (fun r => cellAt r ii == isin)).map
        (fun r => r ++ [dateStrCell (cellAt r dd)])) ∧
    pt.rows.Pairwise (fun r1 r2 => dateKeyCell (cellAt r1 dd) ≤ dateKeyCell (cellAt r2 dd)) ∧
    (∃ j, ∃ hj : j < (sortedDatesOf ts).length, (sortedDatesOf ts).get ⟨j, hj⟩ = d ∧
      ∀ j' (hj' : j' < (sortedDatesOf ts).length),
        (sortedDatesOf ts).get ⟨j', hj'⟩ = d → j' = j) ∧
    ((create_data_file_xls (cellToStr isin) ts desc).drop 2
      = (sortedDatesOf ts).map (fun e =>
          Cell.str e :: TIME_SERIES_ORDER.map (fun mk => tsCellFor (ts mk) e))) ∧
    (∃ r0, pt.rows.find? (fun r => dateStrAt r ds == d) = some r0 ∧
      ∀ mk, tsCellFor (ts mk) d
        = if metricColIdx mk < pt.cols.length then renderVal (cellAt r0 (metricColIdx mk))
          else Cell.str "") := by
  have hpt := prepare_ok_eq t isin pt desc ii dd hii hdd hprep
  have htsEq := createTS_ok_eq pt ts ds hds hts
  -- every series' date column is the date_str column of the sorted rows
  have hdates : ∀ mk, (ts mk).map (·.date) = pt.rows.map (fun r => dateStrAt r ds) := by
    intro mk
    simp only [htsEq]
    by_cases hci : metricColIdx mk < pt.cols.length
    · rw [if_pos hci, List.map_map]
      rfl
    · rw [if_neg hci, List.map_map]
      rfl
  -- a row with date d exists
  have hmem : ∃ r ∈ pt.rows, dateStrAt r ds = d := by
    have hpos : 0 < (pt.rows.filter (fun r => dateStrAt r ds == d)).length := by omega
    obtain ⟨x, hx⟩ := List.exists_mem_of_length_pos hpos
    have := List.mem_filter.1 hx
    exact ⟨x, this.1, by simpa using this.2⟩
  have hdmem : d ∈ sortedDatesOf ts := by
    rw [mem_sortedDatesOf]
    obtain ⟨r, hr, hrd⟩ := hmem
    refine ⟨.OFR, by simp [TIME_SERIES_ORDER], ?_⟩
    have : d ∈ (ts .OFR).map (·.date) := by
      rw [hdates .OFR]
      exact List.mem_map.2 ⟨r, hr, hrd⟩
    obtain ⟨p, hp, hpd⟩ := List.mem_map.1 this
    exact ⟨p, hp, hpd⟩
  refine ⟨?_, ?_, ?_, rfl, ?_⟩
  · rw [hpt]
    exact (sortBy_perm _ _).map _
  · rw [hpt]
    have hsp := sortBy_pairwise (rowDateLe dd) (rowDateLe_total dd) (rowDateLe_trans dd)
      (t.rows.filter (fun r => cellAt r ii == isin))
    refine List.Pairwise.map _ ?_ hsp
    intro a b hab
    simp only [rowDateLe, decide_eq_true_eq] at hab
    rw [dateKeyCell_aug _ _ _ (dateKeyCell_dateStrCell _),
      dateKeyCell_aug _ _ _ (dateKeyCell_dateStrCell _)]
    exact hab
  · obtain ⟨n, hn⟩ := List.mem_iff_get.1 hdmem
    refine ⟨n.1, n.2, hn, ?_⟩
    intro j' hj' hj'd
    have heq : (sortedDatesOf ts).get ⟨j', hj'⟩ = (sortedDatesOf ts).get n := by
      rw [hj'd, hn]
    have := (List.Nodup.get_inj_iff (sortedDatesOf_nodup ts)).1 heq
    exact congrArg Fin.val this
  · have hfind : ((pt.rows.find? (fun r => dateStrAt r ds == d)).isSome) = true := by
      rw [List.find?_isSome]
      obtain ⟨r, hr, hrd⟩ := hmem
      exact ⟨r, hr, by simpa using hrd⟩
    obtain ⟨r0, hr0⟩ := Option.isSome_iff_exists.1 hfind
    refine ⟨r0, hr0, ?_⟩
    intro mk
    simp only [htsEq]
    by_cases hci : metricColIdx mk < pt.cols.length
    · rw [if_pos hci, if_pos hci, tsCellFor, find?_map_list]
      have : (pt.rows.find? (fun a =>
          ((fun r => (⟨dateStrAt r ds, cellAt r (metricColIdx mk)⟩ : TSPoint)) a).date == d))
          = some r0 := by
        simpa using hr0
      rw [this]
      rfl
    · rw [if_neg hci, if_neg hci, tsCellFor, find?_map_list]
      have : (pt.rows.find? (fun a =>
          ((fun r => (⟨dateStrAt r ds, Cell.na⟩ : TSPoint)) a).date == d))
          = some r0 := by
        simpa using hr0
      rw [this]
      rfl

/-- Witness for C3: two rows share the date `2025-01-10` with `Offered`
values 100 and 200; the rendered cell carries the first value, 100. -/
theorem claim_C3_witness :
    tsCellFor ((fun mk => match mk with
      | Metric.OFR => [(⟨"2025-01-10", Cell.num 100⟩ : TSPoint), ⟨"2025-01-10", Cell.num 200⟩]
      | Metric.MIN => [(⟨"2025-01-10", Cell.str "2025-01-10"⟩ : TSPoint),
          ⟨"2025-01-10", Cell.str "2025-01-10"⟩]
      | _ => [(⟨"2025-01-10", Cell.na⟩ : TSPoint), ⟨"2025-01-10", Cell.na⟩])
      Metric.OFR) "2025-01-10"
      = Cell.num 100 := by
  have hprep : prepare_isin_dataE
      ⟨["data asta", "ISIN", "c", "c", "c", "c5", "c", "c", "c", "c9"],
       [[.date ⟨2025, 1, 10⟩, .str "IT1", .na, .na, .na, .str "B", .na, .na, .na, .num 100],
        [.date ⟨2025, 1, 10⟩, .str "IT1", .na, .na, .na, .str "B", .na, .na, .na, .num 200]]⟩
      (.str "IT1")
      = .ok (⟨["data asta", "ISIN", "c", "c", "c", "c5", "c", "c", "c", "c9", "date_str"],
       [[.date ⟨2025, 1, 10⟩, .str "IT1", .na, .na, .na, .str "B", .na, .na, .na, .num 100,
          .str "2025-01-10"],
        [.date ⟨2025, 1, 10⟩, .str "IT1", .na, .na, .na, .str "B", .na, .na, .na, .num 200,
          .str "2025-01-10"]]⟩, "B") := by
    decide
  have hts : create_time_series_dataE
      ⟨["data asta", "ISIN", "c", "c", "c", "c5", "c", "c", "c", "c9", "date_str"],
       [[.date ⟨2025, 1, 10⟩, .str "IT1", .na, .na, .na, .str "B", .na, .na, .na, .num 100,
          .str "2025-01-10"],
        [.date ⟨2025, 1, 10⟩, .str "IT1", .na, .na, .na, .str "B", .na, .na, .na, .num 200,
          .str "2025-01-10"]]⟩
      = .ok (fun mk => match mk with
        | Metric.OFR => [(⟨"2025-01-10", Cell.num 100⟩ : TSPoint), ⟨"2025-01-10", Cell.num 200⟩]
        | Metric.MIN => [(⟨"2025-01-10", Cell.str "2025-01-10"⟩ : TSPoint),
            ⟨"2025-01-10", Cell.str "2025-01-10"⟩]
        | _ => [(⟨"2025-01-10", Cell.na⟩ : TSPoint), ⟨"2025-01-10", Cell.na⟩]) := by
    have h1 : colIdxOf
        (["data asta", "ISIN", "c", "c", "c", "c5", "c", "c", "c", "c9", "date_str"] : List String)
        "date_str" = some 10 := by decide
    simp only [create_time_series_dataE, h1, Except.ok.injEq]
    funext mk
    cases mk <;> decide
  obtain ⟨-, -, -, -, r0, hfind, hval⟩ := claim_C3 _ (.str "IT1") 1 0 _ "B" _ 10 "2025-01-10"
    (by decide) (by decide) hprep hts (by decide) (by decide)
  have hr0 : r0 = [.date ⟨2025, 1, 10⟩, .str "IT1", .na, .na, .na, .str "B", .na, .na, .na,
      .num 100, .str "2025-01-10"] := by
    have hfind2 : (List.find? (fun r => dateStrAt r 10 == "2025-01-10")
        [[.date ⟨2025, 1, 10⟩, .str "IT1", .na, .na, .na, .str "B", .na, .na, .na, .num 100,
           .str "2025-01-10"],
         [.date ⟨2025, 1, 10⟩, .str "IT1", .na, .na, .na, .str "B", .na, .na, .na, .num 200,
           .str "2025-01-10"]])
        = some [.date ⟨2025, 1, 10⟩, .str "IT1", .na, .na, .na, .str "B", .na, .na, .na,
           .num 100, .str "2025-01-10"] := by decide
    have := hfind.symm.trans hfind2
    exact Option.some.inj this
  have h5 := hval Metric.OFR
  rw [hr0] at h5
  rw [h5]
  decide

/-! ## The top-level parser (`parse_auction_data`) -/

/-- `df.iloc[2:]`: skip the two boilerplate rows after the header. -/
def dropHeaderRows (t : Table) : Table := ⟨t.cols, t.rows.drop 2⟩

/-- `df.dropna(how := 'all')`: drop rows whose cells are all missing
(with zero columns every row is vacuously all-missing and is dropped). -/
def dropAllNaRows (t : Table) : Table :=
  ⟨t.cols, t.rows.filter (fun r => ! r.all (fun c => c == Cell.na))⟩

/-- Embedding of `get_unique_isins` (`parser.py`): first-occurrence-order
distinct values of the `ISIN` column; the empty list for an empty table,
a `KeyError` when the column is missing. -/
def get_unique_isinsE (t : Table) : Except PErr (List Cell) :=
  if t.rows.length = 0 then .ok []
  else
    match colIdxOf t.cols "ISIN" with
    | none => .error (.keyError "ISIN")
    | some ii => .ok ((t.rows.map (fun r => cellAt r ii)).dedup)

/-- The per-identifier record stored by `parse_auction_data`
(single-month mode). -/
structure IsinData where
  description : String
  time_series : SeriesMap
  metadata : List (List (String × Cell))
  current_month : String

/-- The body of the per-identifier loop of `parse_auction_data`. -/
def processIsinE (md : Table) (ms : String) (isin : Cell) : Except PErr IsinData :=
  match prepare_isin_dataE md isin with
  | .error e => .error e
  | .ok (idata, desc) =>
    match create_time_series_dataE idata with
    | .error e => .error e
    | .ok ts => .ok ⟨desc, ts, create_metadata_rows (cellToStr isin) desc ms, ms⟩

/-- Embedding of `parse_auction_data` in single-month mode, before the
exception handler: `.ok none` models the guarded `return None` paths,
`.error` an exception escaping to the `except` clause. -/
def parse_auction_dataE (t : Table) (target : Option (Nat × Nat)) :
    Except PErr (Option (List (Cell × IsinData))) :=
  let dfc := clean_isin_column (dropAllNaRows (dropHeaderRows t))
  if dfc.rows.length = 0 then .ok none
  else
    let pr := getMonthDataSingle dfc target
    if pr.1.rows.length = 0 then .ok none
    else
      match get_unique_isinsE pr.1 with
      | .error e => .error e
      | .ok uniques =>
        if uniques.length = 0 then .ok none
        else
          match uniques.mapM (fun isin =>
              (processIsinE pr.1 pr.2 isin).map (fun d => (isin, d))) with
          | .error e => .error e
          | .ok entries => .ok (some entries)

/-- `parse_auction_data` in single-month mode: the `except` clause turns
any internal exception into `None`. -/
def parse_auction_data (t : Table) (target : Option (Nat × Nat)) :
    Option (List (Cell × IsinData)) :=
  match parse_auction_dataE t target with
  | .ok r => r
  | .error _ => none

/-- The per-identifier-per-month record of all-months mode. -/
structure IsinMonthData where
  isin : Cell
  description : String
  time_series : SeriesMap
  metadata : List (List (String × Cell))
  current_month : String

/-- One month bucket's entries in all-months mode (months with zero
unique identifiers are skipped). -/
def processMonthE (bucket : String × Table) : Except PErr (List (String × IsinMonthData)) :=
  match get_unique_isinsE bucket.2 with
  | .error e => .error e
  | .ok uniques =>
    if uniques.length = 0 then .ok []
    else
      uniques.mapM (fun isin =>
        (processIsinE bucket.2 bucket.1 isin).map (fun d =>
          (cellToStr isin ++ "_" ++ bucket.1,
           (⟨isin, d.description, d.time_series, d.metadata, d.current_month⟩ : IsinMonthData))))

/-- Embedding of `parse_auction_data` in all-months mode, before the
exception handler. -/
def parse_auction_data_allE (t : Table) :
    Except PErr (Option (List (String × IsinMonthData))) :=
  let dfc := clean_isin_column (dropAllNaRows (dropHeaderRows t))
  if dfc.rows.length = 0 then .ok none
  else
    let buckets := getMonthDataAll dfc
    if buckets.length = 0 then .ok none
    else
      match buckets.mapM processMonthE with
      | .error e => .error e
      | .ok parts => .ok (some parts.flatten)

/-- `parse_auction_data` in all-months mode, with the exception handler. -/
def parse_auction_data_all (t : Table) : Option (List (String × IsinMonthData)) :=
  match parse_auction_data_allE t with
  | .ok r => r
  | .error _ => none

theorem findIdx?_beq_isSome {l : List String} {a : String} (h : a ∈ l) :
    (l.findIdx? (· == a)).isSome = true := by
  induction l with
  | nil => exact absurd h (by simp)
  | cons b bs ih =>
    rw [List.findIdx?_cons]
    rcases hp : (b == a) with - | -
    · rcases List.mem_cons.1 h with rfl | hbs
      · simp at hp
      · simpa using ih hbs
    · simp

theorem findIdx?_beq_eq_none {l : List String} {a : String} (h : ¬ a ∈ l) :
    l.findIdx? (· == a) = none := by
  induction l with
  | nil => rfl
  | cons b bs ih =>
    have hba : (b == a) = false := by
      simp only [beq_eq_false_iff_ne, ne_eq]
      intro hc
      exact h (by simp [hc])
    have hbs : ¬ a ∈ bs := fun hc => h (by simp [hc])
    simp [List.findIdx?_cons, hba, ih hbs]

theorem findIsinCol_none_not_mem {cols : List String} (h : findIsinCol cols = none) :
    ¬ "ISIN" ∈ cols := by
  intro hmem
  have hc : cols.contains "ISIN" = true := by
    simpa [List.contains] using (List.elem_iff.2 hmem)
  rw [findIsinCol, if_pos hc] at h
  have := findIdx?_beq_isSome hmem
  rw [h] at this
  simp at this

theorem findDateCol_none_nil {cols : List String} (h : findDateCol cols = none) :
    cols = [] := by
  by_cases hc : cols.contains "data asta" = true
  · rw [findDateCol, if_pos hc] at h
    have hmem : "data asta" ∈ cols := by
      simpa [List.contains] using hc
    have := findIdx?_beq_isSome hmem
    rw [h] at this
    simp at this
  · rcases hf : cols.findIdx? (fun c =>
        strContainsSub (strLower c) "data" || strContainsSub (strLower c) "date")
      with - | i
    · rw [findDateCol, if_neg hc] at h
      simp only [hf] at h
      by_cases hlen : cols.length > 0
      · rw [if_pos hlen] at h
        exact absurd h (by simp)
      · exact List.length_eq_zero.1 (by omega)
    · rw [findDateCol, if_neg hc] at h
      simp only [hf] at h
      exact absurd h (by simp)

theorem monthPrep_cols (t : Table) (mt : MonthTable) (hp : monthPrep t = some mt) :
    ∃ i, mt.cols = t.cols.set i "data asta" := by
  rw [monthPrep] at hp
  rcases hf : findDateCol t.cols with - | i <;> rw [hf] at hp
  · exact absurd hp (by simp)
  · refine ⟨i, ?_⟩
    have := Option.some_inj.1 hp
    rw [← this]

theorem not_isin_set_date {cols : List String} (h : ¬ "ISIN" ∈ cols) (i : Nat) :
    ¬ "ISIN" ∈ cols.set i "data asta" := by
  intro hc
  rcases List.mem_or_eq_of_mem_set hc with hmem | heq
  · exact h hmem
  · exact absurd heq (by decide)

theorem getMonthDataSingle_no_isin (t : Table) (target : Option (Nat × Nat))
    (h : ¬ "ISIN" ∈ t.cols) :
    (getMonthDataSingle t target).1.rows = []
      ∨ ¬ "ISIN" ∈ (getMonthDataSingle t target).1.cols := by
  rcases hp : monthPrep t with - | mt
  · simp only [getMonthDataSingle, hp]
    exact Or.inr h
  · obtain ⟨i, hcols⟩ := monthPrep_cols t mt hp
    have hno : ¬ "ISIN" ∈ mt.cols ++ ["month"] := by
      intro hc
      rcases List.mem_append.1 hc with h1 | h2
      · rw [hcols] at h1
        exact not_isin_set_date h i h1
      · simp at h2
    by_cases hz : mt.rows.length = 0
    · simp only [getMonthDataSingle, hp, if_pos hz]
      exact Or.inl trivial
    · rcases target with - | ⟨y, m⟩
      · simp only [getMonthDataSingle, hp, if_neg hz, monthBucket]
        exact Or.inr hno
      · by_cases hany : (mt.rows.any fun r => decide (monthOfRow mt.dateIdx r = (y, m))) = true
        · simp only [getMonthDataSingle, hp, if_neg hz, if_pos hany, monthBucket]
          exact Or.inr hno
        · simp only [getMonthDataSingle, hp, if_neg hz, if_neg hany]
          exact Or.inr hno

theorem getMonthDataAll_bucket (t : Table) (b : String × Table)
    (hb : b ∈ getMonthDataAll t) :
    ∃ mt μ, monthPrep t = some mt ∧ b.2 = monthBucket mt μ ∧ b.2.rows ≠ [] := by
  rcases hp : monthPrep t with - | mt
  · rw [getMonthDataAll, hp] at hb
    exact absurd hb (by simp)
  · simp only [getMonthDataAll, hp] at hb
    by_cases hz : mt.rows.length = 0
    · rw [if_pos hz] at hb
      exact absurd hb (by simp)
    · rw [if_neg hz] at hb
      obtain ⟨μ, hμ, hbe⟩ := List.mem_map.1 hb
      refine ⟨mt, μ, rfl, by rw [← hbe], ?_⟩
      rw [← hbe]
      simp only [monthBucket]
      have : μ ∈ mt.rows.map (monthOfRow mt.dateIdx) := (mem_monthsOf mt μ).1 hμ
      obtain ⟨r, hr, hrμ⟩ := List.mem_map.1 this
      have hrf : r ∈ mt.rows.filter (fun r => decide (monthOfRow mt.dateIdx r = μ)) :=
        List.mem_filter.2 ⟨hr, by simp [hrμ]⟩
      intro hnil
      rw [List.map_eq_nil_iff] at hnil
      rw [hnil] at hrf
      exact absurd hrf (by simp)

/-- Claim C6: when no plausible identifier column or no plausible date
column is found even after the positional fallback, the whole run aborts:
`parse_auction_data` returns `None` in both single-month and all-months
modes, so no output is produced. -/
theorem claim_C6 (t : Table) (target : Option (Nat × Nat))
    (hdet : findIsinCol (dropAllNaRows (dropHeaderRows t)).cols = none
      ∨ findDateCol (dropAllNaRows (dropHeaderRows t)).cols = none) :
    parse_auction_data t target = none ∧ parse_auction_data_all t = none := by
  have hno : findIsinCol (dropAllNaRows (dropHeaderRows t)).cols = none := by
    rcases hdet with h | h
    · exact h
    · rw [findDateCol_none_nil h]
      rfl
  have hclean : clean_isin_column (dropAllNaRows (dropHeaderRows t))
      = dropAllNaRows (dropHeaderRows t) := by
    rw [clean_isin_column, hno]
  have hnomem : ¬ "ISIN" ∈ (dropAllNaRows (dropHeaderRows t)).cols :=
    findIsinCol_none_not_mem hno
  constructor
  · rw [parse_auction_data, parse_auction_dataE, hclean]
    by_cases h1 : (dropAllNaRows (dropHeaderRows t)).rows.length = 0
    · rw [if_pos h1]
    · rw [if_neg h1]
      rcases getMonthDataSingle_no_isin (dropAllNaRows (dropHeaderRows t)) target hnomem
        with hrows | hcols
      · rw [if_pos (by rw [hrows]; rfl)]
      · have hz : ¬ (getMonthDataSingle (dropAllNaRows (dropHeaderRows t)) target).1.rows.length = 0
          ∨ (getMonthDataSingle (dropAllNaRows (dropHeaderRows t)) target).1.rows.length = 0 := by
          tauto
        rcases hz with hz | hz
        · rw [if_neg hz]
          have hu : get_unique_isinsE
              (getMonthDataSingle (dropAllNaRows (dropHeaderRows t)) target).1
              = .error (.keyError "ISIN") := by
            rw [get_unique_isinsE, if_neg hz, colIdxOf, findIdx?_beq_eq_none hcols]
          rw [hu]
        · rw [if_pos hz]
  · rw [parse_auction_data_all, parse_auction_data_allE, hclean]
    by_cases h1 : (dropAllNaRows (dropHeaderRows t)).rows.length = 0
    · rw [if_pos h1]
    · rw [if_neg h1]
      by_cases h2 : (getMonthDataAll (dropAllNaRows (dropHeaderRows t))).length = 0
      · rw [if_pos h2]
      · rw [if_neg h2]
        rcases hB : getMonthDataAll (dropAllNaRows (dropHeaderRows t)) with - | ⟨b, bs⟩
        · rw [hB] at h2
          simp at h2
        · have hbmem : b ∈ getMonthDataAll (dropAllNaRows (dropHeaderRows t)) := by
            rw [hB]
            simp
          obtain ⟨mt, μ, hp, hbe, hbne⟩ :=
            getMonthDataAll_bucket (dropAllNaRows (dropHeaderRows t)) b hbmem
          obtain ⟨i, hcols⟩ := monthPrep_cols _ mt hp
          have hnob : ¬ "ISIN" ∈ b.2.cols := by
            rw [hbe]
            simp only [monthBucket]
            intro hc
            rcases List.mem_append.1 hc with hm1 | hm2
            · rw [hcols] at hm1
              exact not_isin_set_date hnomem i hm1
            · simp at hm2
          have hpm : processMonthE b = .error (.keyError "ISIN") := by
            rw [processMonthE, get_unique_isinsE,
              if_neg (by simpa [List.length_eq_zero] using hbne),
              colIdxOf, findIdx?_beq_eq_none hnob]
          rw [List.mapM_cons, hpm]
          rfl

/-- Witness for C6: a two-column table (no identifier column even by
positional fallback) makes both modes return `None`. -/
theorem claim_C6_witness :
    parse_auction_data ⟨["data asta", "x"],
      [[Cell.na, Cell.na], [Cell.na, Cell.na],
       [Cell.date ⟨2025, 1, 10⟩, Cell.str "A"]]⟩ none = none ∧
    parse_auction_data_all ⟨["data asta", "x"],
      [[Cell.na, Cell.na], [Cell.na, Cell.na],
       [Cell.date ⟨2025, 1, 10⟩, Cell.str "A"]]⟩ = none :=
  claim_C6 ⟨["data asta", "x"],
      [[Cell.na, Cell.na], [Cell.na, Cell.na],
       [Cell.date ⟨2025, 1, 10⟩, Cell.str "A"]]⟩ none (Or.inl (by decide))

/-- Claim C10: in single-month mode, `parse_auction_data` returns `None`
whenever classification keeps zero rows, or the selected month (including
an absent specific month) has zero rows, or zero unique identifiers
remain, or any internal exception is raised. -/
theorem claim_C10 (t : Table) (target : Option (Nat × Nat))
    (h : (clean_isin_column (dropAllNaRows (dropHeaderRows t))).rows.length = 0
      ∨ (getMonthDataSingle (clean_isin_column (dropAllNaRows (dropHeaderRows t)))
          target).1.rows.length = 0
      ∨ (∃ u, get_unique_isinsE (getMonthDataSingle
          (clean_isin_column (dropAllNaRows (dropHeaderRows t))) target).1 = .ok u
          ∧ u.length = 0)
      ∨ (∃ e, parse_auction_dataE t target = .error e)) :
    parse_auction_data t target = none := by
  have key : parse_auction_dataE t target = .ok none
      ∨ (∃ e, parse_auction_dataE t target = .error e) →
      parse_auction_data t target = none := by
    rintro (h' | ⟨e, h'⟩) <;> rw [parse_auction_data, h']
  apply key
  rcases h with h1 | h2 | ⟨u, hu, hu0⟩ | ⟨e, he⟩
  · left
    simp only [parse_auction_dataE]
    rw [if_pos h1]
  · by_cases h1 : (clean_isin_column (dropAllNaRows (dropHeaderRows t))).rows.length = 0
    · left
      simp only [parse_auction_dataE]
      rw [if_pos h1]
    · left
      simp only [parse_auction_dataE]
      rw [if_neg h1, if_pos h2]
  · by_cases h1 : (clean_isin_column (dropAllNaRows (dropHeaderRows t))).rows.length = 0
    · left
      simp only [parse_auction_dataE]
      rw [if_pos h1]
    · by_cases h2 : (getMonthDataSingle (clean_isin_column (dropAllNaRows (dropHeaderRows t)))
          target).1.rows.length = 0
      · left
        simp only [parse_auction_dataE]
        rw [if_neg h1, if_pos h2]
      · left
        simp only [parse_auction_dataE]
        rw [if_neg h1, if_neg h2]
        simp only [hu]
        rw [if_pos hu0]
  · right
    exact ⟨e, he⟩

/-- Witness for C10: a valid table whose only auction lies in March, with
a specific-month request for January. -/
theorem claim_C10_witness :
    parse_auction_data ⟨["data asta", "c", "ISIN"],
      [[Cell.na, Cell.na, Cell.na], [Cell.na, Cell.na, Cell.na],
       [Cell.date ⟨2025, 3, 10⟩, Cell.na, Cell.str "IT0000000001"]]⟩
      (some (2025, 1)) = none :=
  claim_C10 ⟨["data asta", "c", "ISIN"],
      [[Cell.na, Cell.na, Cell.na], [Cell.na, Cell.na, Cell.na],
       [Cell.date ⟨2025, 3, 10⟩, Cell.na, Cell.str "IT0000000001"]]⟩
    (some (2025, 1)) (Or.inr (Or.inl (by decide)))

/-! ## The output materializer (`generate_files_for_isin`) -/

/-- An artifact written by the materializer: the metadata workbook, the
data workbook, or the archive with its member basenames. -/
inductive Artifact where
  | metaF (name : String)
  | dataF (name : String)
  | zipF (name : String) (contents : List String)
deriving DecidableEq, Repr

/-- Embedding of `generate_files_for_isin` (`file_generator_xls.py`) as
the ordered list of artifacts it writes: the metadata file, then the data
file, then the archive holding both basenames. A malformed month label
raises inside the first filename computation, before any file is saved
(`none`: nothing is written). -/
def generate_files_for_isin (isin : String) (d : IsinData) : Option (List Artifact) :=
  match getTimestampFromMonth d.current_month with
  | none => none
  | some ts =>
    some [Artifact.metaF (META_FILE_PATTERN isin ts),
          Artifact.dataF (DATA_FILE_PATTERN isin ts),
          Artifact.zipF (ZIP_FILE_PATTERN isin ts)
            [META_FILE_PATTERN isin ts, DATA_FILE_PATTERN isin ts]]

/-- Claim C9: the materializer never writes only one of the two
artifacts: every run of `generate_files_for_isin` either writes nothing
(the label was malformed and the exception fired before any save) or
writes the metadata file, the data file, and the archive bundling exactly
those two basenames. -/
theorem claim_C9 (isin : String) (d : IsinData) :
    generate_files_for_isin isin d = none ∨
    ∃ ts, getTimestampFromMonth d.current_month = some ts ∧
      generate_files_for_isin isin d
        = some [Artifact.metaF (META_FILE_PATTERN isin ts),
                Artifact.dataF (DATA_FILE_PATTERN isin ts),
                Artifact.zipF (ZIP_FILE_PATTERN isin ts)
                  [META_FILE_PATTERN isin ts, DATA_FILE_PATTERN isin ts]] := by
  rcases hts : getTimestampFromMonth d.current_month with - | ts
  · left
    simp only [generate_files_for_isin, hts]
  · right
    exact ⟨ts, rfl, by simp only [generate_files_for_isin, hts]⟩

end ITBI
